import Mathlib

/-!
# midiAutoDJ: the periodic transition-control tick

A shallow embedding of `midiAutoDJ.main` (src/midiAutoDJ-scripts.js, lines 180-411)
together with the global variables and options it uses.  JavaScript numbers are
modelled by rationals, the binary options and the `syncing` flag by `Bool`, the
integer counters by `Nat`.  The Mixxx engine is a store of control values; every
`engine.setValue` updates the store and is appended to the list of writes of the tick.
-/

namespace midiAutoDJ

/-- Control groups addressed by the script: `[ChannelN]`, `[Master]`, `[AutoDJ]`,
`[QuickEffectRack1_[ChannelN]]`. -/
inductive Group where
  | Channel (n : ℕ)
  | Master
  | AutoDJ
  | QuickEffectRack1 (n : ℕ)
  deriving DecidableEq, Repr

/-- Control names read or written by `midiAutoDJ.main`. -/
inductive Control where
  | playposition
  | play_indicator
  | file_bpm
  | filterLow
  | crossfader
  | sync_enabled
  | sync_mode
  | beat_active
  | bpm
  | key
  | super1
  | skip_next
  | shuffle_playlist
  deriving DecidableEq, Repr

/-- Values of all controls, as `engine.getValue` reports them. -/
abbrev Bus := Group → Control → ℚ

/-- One `engine.setValue(group, control, value)` call. -/
abbrev Write := Group × Control × ℚ

/-- Engine during a tick: current control values and the writes made so far. -/
structure Engine where
  controls : Bus
  writes : List Write

/-- Read a control: `engine.getValue(group, control)`. -/
def Engine.getValue (e : Engine) (g : Group) (c : Control) : ℚ :=
  e.controls g c

/-- Write a control: `engine.setValue(group, control, value)`. -/
def Engine.setValue (e : Engine) (g : Group) (c : Control) (v : ℚ) : Engine :=
  { controls := fun g' c' => if g' = g ∧ c' = c then v else e.controls g' c'
    writes := e.writes ++ [(g, c, v)] }

/-- Script options (lines 49-122). -/
structure Config where
  maxBpmAdjustment : ℚ
  bpmSync : Bool
  bpmSyncFade : Bool
  adaptiveBpmSearch : Bool
  shuffleAfterSkip : Bool
  skipsTillSurrender : ℕ
  careAboutKey : Bool
  adjustKey : Bool
  fadeQuickEffect : Bool
  reverseQuickEffect : Bool
  fadeRange : ℚ
  lowChangeRate : ℚ
  refineDuration : ℚ
  sleepDuration : ℚ

/-- Global variables mutated by `main` (lines 132-135). -/
structure State where
  syncing : Bool
  skips : ℕ
  refineWait : ℕ
  currMaxBpmAdj : ℚ

/-- Initial values of the global variables (lines 132-135). -/
def State.initial (cfg : Config) : State :=
  { syncing := false, skips := 0, refineWait := 0, currMaxBpmAdj := cfg.maxBpmAdjustment }

/-- Lines 181-191: the deck with the larger play position is `prev` (leading). -/
def prevDeck (bus : Bus) : ℕ :=
  if bus (.Channel 1) .playposition < bus (.Channel 2) .playposition then 2 else 1

/-- Lines 181-191: the other deck is `next` (incoming). -/
def nextDeck (bus : Bus) : ℕ :=
  if bus (.Channel 1) .playposition < bus (.Channel 2) .playposition then 1 else 2

/-- Lines 183-191: play position of the incoming deck after the swap. -/
def nextPos (bus : Bus) : ℚ :=
  if bus (.Channel 1) .playposition < bus (.Channel 2) .playposition
  then bus (.Channel 1) .playposition else bus (.Channel 2) .playposition

/-- Line 196: `diffBpm = Math.abs(nextBpm-prevBpm)`. -/
def diffBpm (nextBpm prevBpm : ℚ) : ℚ := |nextBpm - prevBpm|

/-- Lines 197-203: `diffBpm`, with the bpm of one track doubled. -/
def diffBpmDouble (nextBpm prevBpm : ℚ) : ℚ :=
  if nextBpm < prevBpm then |2 * nextBpm - prevBpm| else |2 * prevBpm - nextBpm|

/-- Lines 342-372: the key test; the result is the value of `skip` after it
(`true` = skip, `false` = the pair of keys is accepted). -/
def keyTest (prevKey nextKey : ℚ) : Bool :=
  let diffKey := |prevKey - nextKey|
  let smallKey := if nextKey < prevKey then nextKey else prevKey
  let largeKey := if nextKey < prevKey then prevKey else nextKey
  let skip := true
  let skip := if diffKey = 0 then false else skip
  let skip :=
    if decide (smallKey < 13) && decide (largeKey > 12) &&
        (decide (smallKey < 4) && decide (diffKey = 21) ||
         decide (smallKey > 3) && decide (diffKey = 9)) then false else skip
  let skip :=
    if decide (prevKey < 13) && decide (nextKey < 13) ||
        decide (prevKey > 12) && decide (nextKey > 12) then
      if decide (diffKey = 5) || decide (diffKey = 7) ||
          decide (diffKey = 2) || decide (diffKey = 10) ||
          decide (diffKey = 1) || decide (diffKey = 11)
      then false else skip
    else skip
  skip

/-- Lines 325-373: the value of `skip` after the BPM test and the key test. -/
def skipTest (cfg : Config) (s : State) (e : Engine) (prev next : ℕ)
    (nextBpm prevBpm : ℚ) : Bool :=
  let skip : Bool :=
    if diffBpm nextBpm prevBpm > s.currMaxBpmAdj ∧
        diffBpmDouble nextBpm prevBpm > s.currMaxBpmAdj then true else false
  if cfg.careAboutKey ∧ skip = false then
    keyTest (e.getValue (.Channel prev) .key) (e.getValue (.Channel next) .key)
  else skip

/-- Lines 374-388: the skip branch. -/
def skipBranch (cfg : Config) (s : State) (e : Engine) : State × Engine :=
  let e := e.setValue .AutoDJ .skip_next 1
  let e := e.setValue .AutoDJ .skip_next 0
  let s := { s with skips := s.skips + 1 }
  if s.skips = cfg.skipsTillSurrender then
    let s := { s with skips := 0 }
    let s :=
      if cfg.adaptiveBpmSearch ∧ s.currMaxBpmAdj < cfg.maxBpmAdjustment - 1 / 10 then
        { s with currMaxBpmAdj := s.currMaxBpmAdj + cfg.maxBpmAdjustment / 4 }
      else s
    let e :=
      if cfg.shuffleAfterSkip then
        (e.setValue .AutoDJ .shuffle_playlist 1).setValue .AutoDJ .shuffle_playlist 0
      else e
    (s, e)
  else (s, e)

/-- Lines 397-407: the tempo for the incoming deck of an accepted track. -/
def nextBpmAdjusted (cfg : Config) (nextBpm prevBpm : ℚ) : ℚ :=
  if cfg.bpmSyncFade then
    if diffBpmDouble nextBpm prevBpm < diffBpm nextBpm prevBpm then
      if nextBpm < prevBpm then prevBpm / 2 else prevBpm * 2
    else prevBpm
  else nextBpm

/-- Lines 389-409: the branch "Song selected". -/
def acceptBranch (cfg : Config) (s : State) (e : Engine) (prev next : ℕ)
    (nextBpm prevBpm : ℚ) : State × Engine :=
  let e :=
    if cfg.lowChangeRate > 0 then
      (e.setValue (.Channel prev) .filterLow 1).setValue (.Channel next) .filterLow 1
    else e
  let s :=
    if cfg.adaptiveBpmSearch then { s with currMaxBpmAdj := cfg.maxBpmAdjustment / 4 } else s
  (s, e.setValue (.Channel next) .bpm (nextBpmAdjusted cfg nextBpm prevBpm))

/-- Lines 301-319: reset of the leading tempo, sync clean-up and Quick Effect
preparation, done before the track is examined. -/
def cleanUp (cfg : Config) (s : State) (e : Engine) (prev next : ℕ) (prevBpm : ℚ) :
    State × Engine :=
  let e := if cfg.bpmSyncFade then e.setValue (.Channel prev) .bpm prevBpm else e
  let se : State × Engine :=
    if s.syncing then
      ({ s with syncing := false },
        (e.setValue (.Channel prev) .sync_mode 0).setValue (.Channel next) .sync_mode 0)
    else (s, e)
  let s := se.1
  let e := se.2
  let e :=
    if cfg.fadeQuickEffect then
      (e.setValue (.QuickEffectRack1 next) .super1 (1 / 2 + cfg.fadeRange / 2)).setValue
        (.QuickEffectRack1 prev) .super1 (1 / 2)
    else e
  (s, e)

/-- Lines 301-409: the selection logic, run once the refine wait has elapsed. -/
def selection (cfg : Config) (s : State) (e : Engine) (prev next : ℕ)
    (nextBpm prevBpm : ℚ) : State × Engine :=
  let se := cleanUp cfg s e prev next prevBpm
  let s := se.1
  let e := se.2
  if skipTest cfg s e prev next nextBpm prevBpm then skipBranch cfg s e
  else acceptBranch cfg s e prev next nextBpm prevBpm

/-- Line 294: the refine wait has not yet elapsed. -/
def refineWaiting (cfg : Config) (s : State) : Prop :=
  (s.refineWait : ℚ) * cfg.sleepDuration < cfg.refineDuration

instance (cfg : Config) (s : State) : Decidable (refineWaiting cfg s) := by
  unfold refineWaiting; infer_instance

/-- Lines 289-409: the branch "Next track is stopped". -/
def trackSelection (cfg : Config) (s : State) (e : Engine) (prev next : ℕ)
    (nextBpm prevBpm : ℚ) : State × Engine :=
  if refineWaiting cfg s then ({ s with refineWait := s.refineWait + 1 }, e)
  else selection cfg { s with refineWait := 0 } e prev next nextBpm prevBpm

/-- Lines 219-270: BPM and beat phase synchronisation during a fade. -/
def syncStep (cfg : Config) (s : State) (e : Engine) (prev next : ℕ)
    (nextBpm prevBpm crossfader : ℚ) : State × Engine :=
  let se : State × Engine :=
    if crossfader > 3 / 4 ∧ s.syncing then
      ({ s with syncing := false },
        if cfg.bpmSyncFade then e.setValue (.Channel next) .sync_enabled 2
        else e.setValue (.Channel prev) .sync_enabled 2)
    else if crossfader < 3 / 4 ∧ ¬ s.syncing then
      if cfg.bpmSyncFade then
        ({ s with syncing := true },
          ((e.setValue (.Channel next) .sync_mode 1).setValue
            (.Channel prev) .sync_mode 2).setValue (.Channel next) .sync_enabled 1)
      else if e.getValue (.Channel prev) .beat_active ≠ 0 then
        ({ s with syncing := true },
          ((e.setValue (.Channel prev) .sync_mode 1).setValue
            (.Channel next) .sync_mode 2).setValue (.Channel prev) .sync_enabled 1)
      else (s, e)
    else (s, e)
  let s := se.1
  let e := se.2
  if cfg.bpmSyncFade ∧ s.syncing then
    let prevBpmCurrent := e.getValue (.Channel prev) .bpm
    let adjustedBpm :=
      if diffBpmDouble nextBpm prevBpm < diffBpm nextBpm prevBpm then
        if nextBpm < prevBpm then
          prevBpmCurrent + 1 / 4 * crossfader * (nextBpm * 2 - prevBpmCurrent)
        else prevBpmCurrent + 1 / 4 * crossfader * (nextBpm / 2 - prevBpmCurrent)
      else prevBpmCurrent + 1 / 4 * crossfader * (nextBpm - prevBpmCurrent)
    (s, e.setValue (.Channel prev) .bpm adjustedBpm)
  else (s, e)

/-- Lines 213-217: the normalised crossfader. -/
def normCrossfader (e : Engine) (next : ℕ) : ℚ :=
  let crossfader := (e.getValue .Master .crossfader + 1) / 2
  if next = 1 then 1 - crossfader else crossfader

/-- Lines 277-288: the Quick Effect fade. -/
def quickEffectFade (cfg : Config) (e : Engine) (prev next : ℕ) (crossfader : ℚ) : Engine :=
  let rangefader := crossfader * cfg.fadeRange
  let fadeIn := 1 / 2 - rangefader / 2 + cfg.fadeRange / 2
  let fadeOut := 1 / 2 - rangefader / 2
  if ¬ cfg.reverseQuickEffect then
    (e.setValue (.QuickEffectRack1 prev) .super1 fadeOut).setValue
      (.QuickEffectRack1 next) .super1 fadeIn
  else
    (e.setValue (.QuickEffectRack1 prev) .super1 fadeIn).setValue
      (.QuickEffectRack1 next) .super1 fadeOut

/-- Lines 206-288: the branch "Fade in progress". -/
def fadeInProgress (cfg : Config) (s : State) (e : Engine) (prev next : ℕ)
    (nextBpm prevBpm : ℚ) : State × Engine :=
  let e :=
    if cfg.lowChangeRate > 0 then
      let eq := e.getValue (.Channel prev) .filterLow
      (e.setValue (.Channel prev) .filterLow (eq - 1 / 10)).setValue
        (.Channel next) .filterLow 1
    else e
  let crossfader := normCrossfader e next
  let se : State × Engine :=
    if cfg.bpmSync then syncStep cfg s e prev next nextBpm prevBpm crossfader else (s, e)
  let s := se.1
  let e := se.2
  let e :=
    if cfg.adjustKey ∧ crossfader > 3 / 4 ∧ e.getValue (.Channel prev) .beat_active ≠ 0 then
      e.setValue (.Channel prev) .key (e.getValue (.Channel next) .key)
    else e
  let e := if cfg.fadeQuickEffect then quickEffectFade cfg e prev next crossfader else e
  (s, e)

/-- Lines 180-411: one timer tick.  `bus` holds the control values at the start of
the tick; the result is the new global state and the engine after the tick (final
control values and the writes of this tick, in order). -/
def main (cfg : Config) (s : State) (bus : Bus) : State × Engine :=
  let e : Engine := { controls := bus, writes := [] }
  let prev := prevDeck bus
  let next := nextDeck bus
  let nextPlaying := e.getValue (.Channel next) .play_indicator
  let prevBpm := e.getValue (.Channel prev) .file_bpm
  let nextBpm := e.getValue (.Channel next) .file_bpm
  if nextPlaying ≠ 0 ∧ nextPos bus > 0 then fadeInProgress cfg s e prev next nextBpm prevBpm
  else if ¬ nextPlaying ≠ 0 then trackSelection cfg s e prev next nextBpm prevBpm
  else (s, e)

/-- The tick runs the selection logic: the incoming deck is not playing (line 289) and
the refine wait has elapsed (line 294). -/
def runsSelection (cfg : Config) (s : State) (bus : Bus) : Prop :=
  bus (.Channel (nextDeck bus)) .play_indicator = 0 ∧ ¬ refineWaiting cfg s

instance (cfg : Config) (s : State) (bus : Bus) : Decidable (runsSelection cfg s bus) := by
  unfold runsSelection; infer_instance

/-- The tick issues a skip request: it writes 1 to `[AutoDJ] skip_next` (line 375). -/
def skipRequested (cfg : Config) (s : State) (bus : Bus) : Prop :=
  (Group.AutoDJ, Control.skip_next, (1 : ℚ)) ∈ (main cfg s bus).2.writes

instance (cfg : Config) (s : State) (bus : Bus) : Decidable (skipRequested cfg s bus) := by
  unfold skipRequested; infer_instance

/-- The tick accepts the incoming track: it runs the selection logic and does not skip. -/
def accepts (cfg : Config) (s : State) (bus : Bus) : Prop :=
  runsSelection cfg s bus ∧ ¬ skipRequested cfg s bus

instance (cfg : Config) (s : State) (bus : Bus) : Decidable (accepts cfg s bus) := by
  unfold accepts; infer_instance

/-- The values the tick writes to one control, in order. -/
def writtenTo (cfg : Config) (s : State) (bus : Bus) (g : Group) (c : Control) : List ℚ :=
  ((main cfg s bus).2.writes.filter (fun w => decide (w.1 = g ∧ w.2.1 = c))).map (fun w => w.2.2)

/-- The options as they stand in the source file (lines 50-119). -/
def sourceConfig : Config :=
  { maxBpmAdjustment := 300, bpmSync := true, bpmSyncFade := true, adaptiveBpmSearch := false,
    shuffleAfterSkip := false, skipsTillSurrender := 0, careAboutKey := false,
    adjustKey := false, fadeQuickEffect := true, reverseQuickEffect := false,
    fadeRange := 1 / 4, lowChangeRate := 1 / 10, refineDuration := 500, sleepDuration := 200 }

/-- A bus with deck 1 leading at play position 1/2, deck 2 loaded and stopped at
position 0, the given declared BPMs and keys, and every other control at 0. -/
def idleBus (prevBpm nextBpm prevKey nextKey : ℚ) : Bus := fun g c =>
  match g, c with
  | .Channel 1, .playposition => 1 / 2
  | .Channel 1, .file_bpm => prevBpm
  | .Channel 2, .file_bpm => nextBpm
  | .Channel 1, .key => prevKey
  | .Channel 2, .key => nextKey
  | _, _ => 0

/-- A state whose refine wait has elapsed for `sourceConfig`, with the given tolerance. -/
def readyState (tol : ℚ) : State :=
  { syncing := false, skips := 0, refineWait := 3, currMaxBpmAdj := tol }

/-- Follows the spec's words (Key Harmony Evaluator): two key codes are compatible iff
they are equal; or one is major (code ≤ 12), the other minor (code ≥ 13) and the codes
differ by exactly `offLow` if the major code is ≤ 3 or by exactly `offHigh` if the major
code is > 3; or both are major or both minor and the absolute difference of the codes is
one of 1, 2, 5, 7, 10, 11.  The spec's text has `offLow = 9` and `offHigh = 21`. -/
def harmonicRule (offLow offHigh p n : ℕ) : Prop :=
  p = n ∨
    (p ≤ 12 ∧ 13 ≤ n ∧ (p ≤ 3 ∧ Nat.dist p n = offLow ∨ 3 < p ∧ Nat.dist p n = offHigh)) ∨
    (n ≤ 12 ∧ 13 ≤ p ∧ (n ≤ 3 ∧ Nat.dist p n = offLow ∨ 3 < n ∧ Nat.dist p n = offHigh)) ∨
    ((p ≤ 12 ∧ n ≤ 12 ∨ 13 ≤ p ∧ 13 ≤ n) ∧
      (Nat.dist p n = 1 ∨ Nat.dist p n = 2 ∨ Nat.dist p n = 5 ∨ Nat.dist p n = 7 ∨
        Nat.dist p n = 10 ∨ Nat.dist p n = 11))

instance (offLow offHigh p n : ℕ) : Decidable (harmonicRule offLow offHigh p n) := by
  unfold harmonicRule; infer_instance

/-- States reachable from the initial state by any sequence of ticks, whatever the
engine reports at each tick. -/
inductive Reachable (cfg : Config) : State → Prop where
  | initial : Reachable cfg (State.initial cfg)
  | tick (s : State) (bus : Bus) : Reachable cfg s → Reachable cfg (main cfg s bus).1

/-- State at the start of tick `k + 1` of a run of consecutive ticks from `s₀`, where
`buses k` is what the engine reports at tick `k + 1`. -/
def runState (cfg : Config) (buses : ℕ → Bus) (s₀ : State) : ℕ → State
  | 0 => s₀
  | k + 1 => (main cfg (runState cfg buses s₀ k) (buses k)).1

/-- A bus on which the incoming deck (deck 2, position 0) reports a true play
indicator although it has not started: the "falsely true" case of line 206. -/
def falselyPlayingBus : Bus := fun g c =>
  match g, c with
  | .Channel 1, .playposition => 1 / 2
  | .Channel 2, .play_indicator => 1
  | _, _ => 0

/-- No write of the engine's log addresses the Auto DJ queue. -/
def queueUntouched (e : Engine) : Prop := ∀ w ∈ e.writes, w.1 ≠ Group.AutoDJ

/-- Options with adaptive search on and the documented defaults for the maximum BPM
adjustment (12) and the surrender threshold (24). -/
def adaptiveConfig : Config :=
  { sourceConfig with adaptiveBpmSearch := true, maxBpmAdjustment := 12,
                      skipsTillSurrender := 24 }

/-- The values written so far to one control, in order. -/
def Engine.written (e : Engine) (g : Group) (c : Control) : List ℚ :=
  (e.writes.filter (fun w => decide (w.1 = g ∧ w.2.1 = c))).map (fun w => w.2.2)

/-- Line 206: the condition of the branch "Fade in progress". -/
def fadeTick (bus : Bus) : Prop :=
  bus (.Channel (nextDeck bus)) .play_indicator ≠ 0 ∧ nextPos bus > 0

instance (bus : Bus) : Decidable (fadeTick bus) := by
  unfold fadeTick; infer_instance

/-- Lines 213-217: the progress of the fade, the normalised crossfader of the tick. -/
def progress (bus : Bus) : ℚ := normCrossfader ⟨bus, []⟩ (nextDeck bus)

/-- Lines 208-212: the taper of the low filter during a fade. -/
def lowTaper (cfg : Config) (e : Engine) (prev next : ℕ) : Engine :=
  if cfg.lowChangeRate > 0 then
    (e.setValue (.Channel prev) .filterLow (e.getValue (.Channel prev) .filterLow - 1 / 10)).setValue
      (.Channel next) .filterLow 1
  else e

/-- Lines 272-276: the delayed key adjustment. -/
def keyAdjust (cfg : Config) (e : Engine) (prev next : ℕ) (crossfader : ℚ) : Engine :=
  if cfg.adjustKey ∧ crossfader > 3 / 4 ∧ e.getValue (.Channel prev) .beat_active ≠ 0 then
    e.setValue (.Channel prev) .key (e.getValue (.Channel next) .key)
  else e

/-- Lines 225-255: the value of `syncing` after the engage/disengage block, from its
value before, the normalised crossfader and the leading deck's `beat_active`. -/
def syncingAfter (cfg : Config) (syncing : Bool) (crossfader beatActive : ℚ) : Bool :=
  if crossfader > 3 / 4 ∧ syncing then false
  else if crossfader < 3 / 4 ∧ ¬ syncing then
    if cfg.bpmSyncFade then true else if beatActive ≠ 0 then true else syncing
  else syncing

/-- Lines 260-266: the tempo the incremental adjustment moves towards: the incoming
track's declared BPM, doubled or halved when the doubled distance is the smaller one. -/
def desiredBpm (nextBpm prevBpm : ℚ) : ℚ :=
  if diffBpmDouble nextBpm prevBpm < diffBpm nextBpm prevBpm then
    if nextBpm < prevBpm then nextBpm * 2 else nextBpm / 2
  else nextBpm

/-- A bus in the middle of a fade: deck 1 leading at play position 1/2 with the given
declared and live tempo, deck 2 incoming, playing at position 1/4, the raw crossfader
as given, every other control at 0. -/
def fadeBus (prevBpm nextBpm liveBpm rawCrossfader : ℚ) : Bus := fun g c =>
  match g, c with
  | .Channel 1, .playposition => 1 / 2
  | .Channel 2, .playposition => 1 / 4
  | .Channel 2, .play_indicator => 1
  | .Channel 1, .file_bpm => prevBpm
  | .Channel 2, .file_bpm => nextBpm
  | .Channel 1, .bpm => liveBpm
  | .Master, .crossfader => rawCrossfader
  | _, _ => 0

/-- A state in the middle of a transition, with the given `syncing` flag. -/
def fadingState (syncing : Bool) : State :=
  { syncing := syncing, skips := 0, refineWait := 0, currMaxBpmAdj := 12 }

/-- The tick performs the disengage action of lines 225-234: it writes 2 to the
`sync_enabled` control of the incoming or of the leading deck. -/
def disengages (cfg : Config) (s : State) (bus : Bus) : Prop :=
  2 ∈ writtenTo cfg s bus (.Channel (nextDeck bus)) .sync_enabled ∨
    2 ∈ writtenTo cfg s bus (.Channel (prevDeck bus)) .sync_enabled

/-- The tick performs the engage action of lines 238-253: it writes 1 to the
`sync_enabled` control of the incoming or of the leading deck. -/
def engages (cfg : Config) (s : State) (bus : Bus) : Prop :=
  1 ∈ writtenTo cfg s bus (.Channel (nextDeck bus)) .sync_enabled ∨
    1 ∈ writtenTo cfg s bus (.Channel (prevDeck bus)) .sync_enabled

/-- A run of fade ticks for the source options in which the engine reports as the
leading deck's live tempo the value last written: leading 120, incoming 130, raw
crossfader 0 (progress 0.5); the live tempo at tick `k + 1` is `130 - 10 * (7/8)^k`. -/
def feedbackBuses (k : ℕ) : Bus := fadeBus 120 130 (130 - 10 * (7 / 8) ^ k) 0

/-- The shift by one semitone inside each tonality, as claim C21 words it:
`(k mod 12) + 1` for the major codes 1..12 and `13 + ((k - 12) mod 12)` for the minor
codes 13..24. -/
def transpose (k : ℕ) : ℕ :=
  if k ≤ 12 then k % 12 + 1 else 13 + (k - 12) % 12

/-- The source options with the direction of the Quick Effect fade reversed. -/
def reverseConfig : Config :=
  { sourceConfig with reverseQuickEffect := true }

/-- The key test of lines 357-372 on natural key codes, in natural-number arithmetic. -/
def natKeyRule (p n : ℕ) : Prop :=
  Nat.dist p n = 0 ∨
    (min p n < 13 ∧ max p n > 12 ∧
      (min p n < 4 ∧ Nat.dist p n = 21 ∨ min p n > 3 ∧ Nat.dist p n = 9)) ∨
    ((p < 13 ∧ n < 13 ∨ p > 12 ∧ n > 12) ∧
      (Nat.dist p n = 5 ∨ Nat.dist p n = 7 ∨ Nat.dist p n = 2 ∨ Nat.dist p n = 10 ∨
        Nat.dist p n = 1 ∨ Nat.dist p n = 11))

instance (p n : ℕ) : Decidable (natKeyRule p n) := by
  unfold natKeyRule; infer_instance

/-- The tick rejects the incoming track: it runs the selection logic (lines 289, 294)
on a track for which the skip test sets `skip`: both BPM distances exceed the tolerance
(line 326), or key matching is on and the key test keeps `skip` set (lines 341-373). -/
def rejects (cfg : Config) (s : State) (bus : Bus) : Prop :=
  runsSelection cfg s bus ∧
    ((diffBpm (bus (.Channel (nextDeck bus)) .file_bpm)
          (bus (.Channel (prevDeck bus)) .file_bpm) > s.currMaxBpmAdj ∧
        diffBpmDouble (bus (.Channel (nextDeck bus)) .file_bpm)
          (bus (.Channel (prevDeck bus)) .file_bpm) > s.currMaxBpmAdj) ∨
      (cfg.careAboutKey = true ∧
        keyTest (bus (.Channel (prevDeck bus)) .key) (bus (.Channel (nextDeck bus)) .key)
          = true))

instance (cfg : Config) (s : State) (bus : Bus) : Decidable (rejects cfg s bus) := by
  unfold rejects; infer_instance

/-- Options with adaptive search on, the documented default maximum of 12 BPM, a
surrender threshold of 1 and a refine duration equal to the tick interval. -/
def quickConfig : Config :=
  { sourceConfig with adaptiveBpmSearch := true, maxBpmAdjustment := 12,
                      skipsTillSurrender := 1, refineDuration := 200 }

/-- A stopped state of `quickConfig` with the given debounce counter and tolerance. -/
def quickState (refineWait : ℕ) (tol : ℚ) : State :=
  { syncing := false, skips := 0, refineWait := refineWait, currMaxBpmAdj := tol }

/-! ## Basic lemmas -/

@[simp] theorem getValue_setValue (e : Engine) (g g' : Group) (c c' : Control) (v : ℚ) :
    (e.setValue g c v).getValue g' c' = if g' = g ∧ c' = c then v else e.getValue g' c' := rfl

@[simp] theorem writes_setValue (e : Engine) (g : Group) (c : Control) (v : ℚ) :
    (e.setValue g c v).writes = e.writes ++ [(g, c, v)] := rfl

@[simp] theorem getValue_mk (b : Bus) (w : List Write) (g : Group) (c : Control) :
    (Engine.mk b w).getValue g c = b g c := rfl

theorem prevDeck_ne_nextDeck (bus : Bus) : prevDeck bus ≠ nextDeck bus := by
  unfold prevDeck nextDeck; split_ifs <;> decide

/-- The BPM test of line 326 compares the smaller of the two distances with the tolerance. -/
theorem bpmTest_iff_min (d dd t : ℚ) : (d > t ∧ dd > t) ↔ min d dd > t := by
  simp [lt_min_iff]

/-- The doubled distance doubles the smaller of the two BPM values. -/
theorem diffBpmDouble_eq (a b : ℚ) : diffBpmDouble a b = |2 * min a b - max a b| := by
  unfold diffBpmDouble
  split_ifs with h
  · rw [min_eq_left h.le, max_eq_right h.le]
  · push_neg at h
    rw [min_eq_right h, max_eq_left h]

theorem main_of_runsSelection (cfg : Config) (s : State) (bus : Bus)
    (h : runsSelection cfg s bus) :
    main cfg s bus =
      selection cfg { s with refineWait := 0 } ⟨bus, []⟩ (prevDeck bus) (nextDeck bus)
        (bus (.Channel (nextDeck bus)) .file_bpm) (bus (.Channel (prevDeck bus)) .file_bpm) := by
  obtain ⟨h1, h2⟩ := h
  simp [main, trackSelection, h1, h2]

theorem skipTest_iff (cfg : Config) (s : State) (e : Engine) (p n : ℕ) (nb pb : ℚ) :
    skipTest cfg s e p n nb pb = true ↔
      (min (diffBpm nb pb) (diffBpmDouble nb pb) > s.currMaxBpmAdj ∨
        (cfg.careAboutKey = true ∧
          keyTest (e.getValue (.Channel p) .key) (e.getValue (.Channel n) .key) = true)) := by
  unfold skipTest
  rw [← bpmTest_iff_min]
  by_cases hb : diffBpm nb pb > s.currMaxBpmAdj ∧ diffBpmDouble nb pb > s.currMaxBpmAdj
  · simp [hb]
  · cases hk : cfg.careAboutKey <;> simp [hb]

theorem cleanUp_state (cfg : Config) (s : State) (e : Engine) (p n : ℕ) (pb : ℚ) :
    (cleanUp cfg s e p n pb).1 = { s with syncing := false } := by
  obtain ⟨sy, sk, rw, cu⟩ := s
  cases sy <;> simp [cleanUp]

theorem cleanUp_key (cfg : Config) (s : State) (e : Engine) (p n : ℕ) (pb : ℚ) (g : Group) :
    (cleanUp cfg s e p n pb).2.getValue g .key = e.getValue g .key := by
  unfold cleanUp
  cases cfg.bpmSyncFade <;> cases s.syncing <;> cases cfg.fadeQuickEffect <;> simp

theorem cleanUp_bpm (cfg : Config) (s : State) (e : Engine) (p n : ℕ) (pb : ℚ)
    (h : cfg.bpmSyncFade = true) :
    (cleanUp cfg s e p n pb).2.getValue (.Channel p) .bpm = pb := by
  unfold cleanUp
  cases s.syncing <;> cases cfg.fadeQuickEffect <;> simp [h]

theorem skipTest_cleanUp (cfg : Config) (s : State) (e : Engine) (p n : ℕ) (nb pb : ℚ) :
    skipTest cfg (cleanUp cfg s e p n pb).1 (cleanUp cfg s e p n pb).2 p n nb pb =
      skipTest cfg s e p n nb pb := by
  unfold skipTest
  rw [cleanUp_key, cleanUp_key, cleanUp_state]

/-- Writes of the clean-up never touch the queue controls or the incoming tempo. -/
theorem cleanUp_writes (cfg : Config) (s : State) (e : Engine) (p n : ℕ) (pb : ℚ)
    (hpn : p ≠ n) :
    ∃ l, (cleanUp cfg s e p n pb).2.writes = e.writes ++ l ∧
      ∀ w ∈ l, w.1 ≠ Group.AutoDJ ∧ ¬ (w.1 = Group.Channel n ∧ w.2.1 = Control.bpm) := by
  unfold cleanUp
  cases cfg.bpmSyncFade <;> cases s.syncing <;> cases cfg.fadeQuickEffect <;>
    simp <;> aesop

theorem skipBranch_writes (cfg : Config) (s : State) (e : Engine) :
    ∃ l, (skipBranch cfg s e).2.writes =
        e.writes ++ (Group.AutoDJ, Control.skip_next, (1 : ℚ)) :: l ∧
      ∀ w ∈ l, w.1 = Group.AutoDJ := by
  unfold skipBranch
  by_cases h : s.skips + 1 = cfg.skipsTillSurrender <;> cases cfg.shuffleAfterSkip <;>
    simp [h] <;> aesop

theorem acceptBranch_writes (cfg : Config) (s : State) (e : Engine) (p n : ℕ) (nb pb : ℚ) :
    ∃ l, (acceptBranch cfg s e p n nb pb).2.writes =
        e.writes ++ l ++ [(Group.Channel n, Control.bpm, nextBpmAdjusted cfg nb pb)] ∧
      ∀ w ∈ l, w.1 ≠ Group.AutoDJ ∧ ¬ (w.1 = Group.Channel n ∧ w.2.1 = Control.bpm) := by
  unfold acceptBranch
  by_cases h : cfg.lowChangeRate > 0
  · refine ⟨[(Group.Channel p, Control.filterLow, 1), (Group.Channel n, Control.filterLow, 1)],
      ?_, ?_⟩
    · simp [h]
    · simp
  · exact ⟨[], by simp [h], by simp⟩

/-- Writes of the selection logic on a rejected track. -/
theorem selection_writes_skip (cfg : Config) (s : State) (e : Engine) (p n : ℕ) (nb pb : ℚ)
    (hpn : p ≠ n) (h : skipTest cfg s e p n nb pb = true) :
    ∃ l₁ l₂, (selection cfg s e p n nb pb).2.writes =
        e.writes ++ l₁ ++ (Group.AutoDJ, Control.skip_next, (1 : ℚ)) :: l₂ ∧
      (∀ w ∈ l₁, w.1 ≠ Group.AutoDJ ∧ ¬ (w.1 = Group.Channel n ∧ w.2.1 = Control.bpm)) ∧
      ∀ w ∈ l₂, w.1 = Group.AutoDJ := by
  obtain ⟨l₁, h₁, h₁'⟩ := cleanUp_writes cfg s e p n pb hpn
  obtain ⟨l₂, h₂, h₂'⟩ := skipBranch_writes cfg (cleanUp cfg s e p n pb).1 (cleanUp cfg s e p n pb).2
  refine ⟨l₁, l₂, ?_, h₁', h₂'⟩
  simp only [selection, skipTest_cleanUp, h, if_true]
  rw [h₂, h₁]

/-- Writes of the selection logic on an accepted track. -/
theorem selection_writes_accept (cfg : Config) (s : State) (e : Engine) (p n : ℕ) (nb pb : ℚ)
    (hpn : p ≠ n) (h : skipTest cfg s e p n nb pb = false) :
    ∃ l, (selection cfg s e p n nb pb).2.writes =
        e.writes ++ l ++ [(Group.Channel n, Control.bpm, nextBpmAdjusted cfg nb pb)] ∧
      ∀ w ∈ l, w.1 ≠ Group.AutoDJ ∧ ¬ (w.1 = Group.Channel n ∧ w.2.1 = Control.bpm) := by
  obtain ⟨l₁, h₁, h₁'⟩ := cleanUp_writes cfg s e p n pb hpn
  obtain ⟨l₂, h₂, h₂'⟩ := acceptBranch_writes cfg (cleanUp cfg s e p n pb).1
    (cleanUp cfg s e p n pb).2 p n nb pb
  refine ⟨l₁ ++ l₂, ?_, ?_⟩
  · simp only [selection, skipTest_cleanUp, h]
    simp [h₂, h₁]
  · intro w hw
    rcases List.mem_append.1 hw with hw | hw
    · exact h₁' w hw
    · exact h₂' w hw

theorem skipRequested_iff (cfg : Config) (s : State) (bus : Bus)
    (h : runsSelection cfg s bus) :
    skipRequested cfg s bus ↔
      skipTest cfg { s with refineWait := 0 } ⟨bus, []⟩ (prevDeck bus) (nextDeck bus)
        (bus (.Channel (nextDeck bus)) .file_bpm) (bus (.Channel (prevDeck bus)) .file_bpm)
        = true := by
  unfold skipRequested
  rw [main_of_runsSelection cfg s bus h]
  constructor
  · intro hm
    by_contra hs
    simp only [Bool.not_eq_true] at hs
    obtain ⟨l, hl, hl'⟩ := selection_writes_accept cfg _ ⟨bus, []⟩ _ _ _ _
      (prevDeck_ne_nextDeck bus) hs
    rw [hl] at hm
    simp only [List.nil_append, List.mem_append, List.mem_singleton, Prod.mk.injEq,
      reduceCtorEq, false_and, and_false, or_false] at hm
    exact (hl' _ hm).1 rfl
  · intro hs
    obtain ⟨l₁, l₂, hl, -, -⟩ := selection_writes_skip cfg _ ⟨bus, []⟩ _ _ _ _
      (prevDeck_ne_nextDeck bus) hs
    rw [hl]
    simp

theorem writtenTo_of_accepts (cfg : Config) (s : State) (bus : Bus) (h : accepts cfg s bus) :
    writtenTo cfg s bus (.Channel (nextDeck bus)) .bpm =
      [nextBpmAdjusted cfg (bus (.Channel (nextDeck bus)) .file_bpm)
        (bus (.Channel (prevDeck bus)) .file_bpm)] := by
  obtain ⟨hr, hs⟩ := h
  rw [skipRequested_iff cfg s bus hr, Bool.not_eq_true] at hs
  obtain ⟨l, hl, hl'⟩ := selection_writes_accept cfg _ ⟨bus, []⟩ _ _ _ _
    (prevDeck_ne_nextDeck bus) hs
  unfold writtenTo
  rw [main_of_runsSelection cfg s bus hr, hl]
  have : l.filter (fun w => decide (w.1 = Group.Channel (nextDeck bus) ∧ w.2.1 = Control.bpm))
      = [] := by
    rw [List.filter_eq_nil_iff]
    intro w hw
    simpa using (hl' w hw).2
  simp only [List.nil_append, List.filter_append, this]
  simp [List.filter_cons]

theorem ite_lt_eq_min (a b : ℚ) : (if b < a then b else a) = min a b := by
    rcases lt_or_le b a with h | h
    · simp [h, min_eq_right h.le]
    · simp [not_lt.2 h, min_eq_left h]


theorem ite_lt_eq_max (a b : ℚ) : (if b < a then a else b) = max a b := by
    rcases lt_or_le b a with h | h
    · simp [h, max_eq_left h.le]
    · simp [not_lt.2 h, max_eq_right h]


theorem skip_cascade (C1 C2 C3 C4 : Prop) [Decidable C1] [Decidable C2] [Decidable C3]
    [Decidable C4] :
    (if C3 then (if C4 then false else if C2 then false else if C1 then false else true)
      else if C2 then false else if C1 then false else true) = false ↔
      (C1 ∨ C2 ∨ (C3 ∧ C4)) := by
  by_cases h1 : C1 <;> by_cases h2 : C2 <;> by_cases h3 : C3 <;> by_cases h4 : C4 <;>
    simp [h1, h2, h3, h4]


theorem keyTest_eq_false_iff (a b : ℚ) : keyTest a b = false ↔
      (|a - b| = 0 ∨
        (min a b < 13 ∧ max a b > 12 ∧
          (min a b < 4 ∧ |a - b| = 21 ∨ min a b > 3 ∧ |a - b| = 9)) ∨
        ((a < 13 ∧ b < 13 ∨ a > 12 ∧ b > 12) ∧
          (|a - b| = 5 ∨ |a - b| = 7 ∨ |a - b| = 2 ∨ |a - b| = 10 ∨ |a - b| = 1 ∨
            |a - b| = 11))) := by
  unfold keyTest
  simp only [ite_lt_eq_min, ite_lt_eq_max]
  simp only [Bool.and_eq_true, Bool.or_eq_true, decide_eq_true_eq]
  rw [skip_cascade]
  simp only [and_assoc, or_assoc]

theorem abs_cast_sub_eq (p n k : ℕ) : |(p : ℚ) - (n : ℚ)| = (k : ℚ) ↔ Nat.dist p n = k := by
  rcases le_total p n with h | h
  · rw [abs_of_nonpos (by simpa using (Nat.cast_le (α := ℚ)).2 h), Nat.dist_eq_sub_of_le h]
    constructor
    · intro hk
      have : (n : ℚ) = p + k := by linarith
      have : n = p + k := by exact_mod_cast this
      omega
    · intro hk
      have : n = p + k := by omega
      rw [this]; push_cast; ring
  · rw [abs_of_nonneg (by simpa using (Nat.cast_le (α := ℚ)).2 h),
      Nat.dist_eq_sub_of_le_right h]
    constructor
    · intro hk
      have : (p : ℚ) = n + k := by linarith
      have : p = n + k := by exact_mod_cast this
      omega
    · intro hk
      have : p = n + k := by omega
      rw [this]; push_cast; ring

/-- The key test on integer key codes, in terms of natural-number arithmetic. -/
theorem keyTest_natCast (p n : ℕ) : keyTest (p : ℚ) (n : ℚ) = false ↔
      (Nat.dist p n = 0 ∨
        (min p n < 13 ∧ max p n > 12 ∧
          (min p n < 4 ∧ Nat.dist p n = 21 ∨ min p n > 3 ∧ Nat.dist p n = 9)) ∨
        ((p < 13 ∧ n < 13 ∨ p > 12 ∧ n > 12) ∧
          (Nat.dist p n = 5 ∨ Nat.dist p n = 7 ∨ Nat.dist p n = 2 ∨ Nat.dist p n = 10 ∨
            Nat.dist p n = 1 ∨ Nat.dist p n = 11))) := by
  rw [keyTest_eq_false_iff]
  have h := fun k => abs_cast_sub_eq p n k
  have h0 := h 0; have h1 := h 1; have h2 := h 2; have h5 := h 5; have h7 := h 7
  have h9 := h 9; have h10 := h 10; have h11 := h 11; have h21 := h 21
  push_cast at h0 h1 h2 h5 h7 h9 h10 h11 h21
  rw [h0, h1, h2, h5, h7, h9, h10, h11, h21]
  simp only [← Nat.cast_min, ← Nat.cast_max, Nat.cast_lt_ofNat, Nat.ofNat_lt_cast, gt_iff_lt]

theorem keyTest_harmonicRule (p n : ℕ) (hp : 1 ≤ p) (hp' : p ≤ 24) (hn : 1 ≤ n) (hn' : n ≤ 24) :
    keyTest (p : ℚ) (n : ℚ) = false ↔ harmonicRule 21 9 p n := by
  rw [keyTest_natCast]
  unfold harmonicRule Nat.dist
  omega

theorem keyTest_comm (a b : ℚ) : keyTest a b = keyTest b a := by
  have h : keyTest a b = false ↔ keyTest b a = false := by
    have hc : (b < 13 ∧ a < 13 ∨ b > 12 ∧ a > 12) ↔ (a < 13 ∧ b < 13 ∨ a > 12 ∧ b > 12) :=
      ⟨fun h => h.imp And.symm And.symm, fun h => h.imp And.symm And.symm⟩
    rw [keyTest_eq_false_iff, keyTest_eq_false_iff, abs_sub_comm b a, min_comm b a,
      max_comm b a, hc]
  cases h1 : keyTest a b <;> cases h2 : keyTest b a <;> simp_all

theorem acceptBranch_bpm (cfg : Config) (s : State) (e : Engine) (p n : ℕ) (nb pb : ℚ)
    (hpn : p ≠ n) :
    (acceptBranch cfg s e p n nb pb).2.getValue (.Channel p) .bpm =
      e.getValue (.Channel p) .bpm := by
  unfold acceptBranch
  by_cases h : cfg.lowChangeRate > 0 <;> simp [h, hpn]

theorem selection_of_skipTest_false (cfg : Config) (s : State) (e : Engine) (p n : ℕ)
    (nb pb : ℚ) (h : skipTest cfg s e p n nb pb = false) :
    selection cfg s e p n nb pb =
      acceptBranch cfg (cleanUp cfg s e p n pb).1 (cleanUp cfg s e p n pb).2 p n nb pb := by
  simp only [selection, skipTest_cleanUp, h]
  rfl

theorem selection_of_skipTest_true (cfg : Config) (s : State) (e : Engine) (p n : ℕ)
    (nb pb : ℚ) (h : skipTest cfg s e p n nb pb = true) :
    selection cfg s e p n nb pb =
      skipBranch cfg (cleanUp cfg s e p n pb).1 (cleanUp cfg s e p n pb).2 := by
  simp only [selection, skipTest_cleanUp, h]
  rfl

/-- In gradual mode the leading deck's live tempo after an accepting tick is its
declared BPM, written by line 303. -/
theorem live_bpm_of_accepts (cfg : Config) (s : State) (bus : Bus) (h : accepts cfg s bus)
    (hf : cfg.bpmSyncFade = true) :
    (main cfg s bus).2.getValue (.Channel (prevDeck bus)) .bpm =
      bus (.Channel (prevDeck bus)) .file_bpm := by
  obtain ⟨hr, hs⟩ := h
  rw [skipRequested_iff cfg s bus hr, Bool.not_eq_true] at hs
  rw [main_of_runsSelection cfg s bus hr, selection_of_skipTest_false _ _ _ _ _ _ _ hs,
    acceptBranch_bpm _ _ _ _ _ _ _ (prevDeck_ne_nextDeck bus), cleanUp_bpm _ _ _ _ _ _ hf]

@[simp] theorem queueUntouched_setValue (e : Engine) (g : Group) (c : Control) (v : ℚ) :
    queueUntouched (e.setValue g c v) ↔ queueUntouched e ∧ g ≠ Group.AutoDJ := by
  unfold queueUntouched
  simp only [writes_setValue, List.mem_append, List.mem_singleton]
  constructor
  · intro h
    exact ⟨fun w hw => h w (Or.inl hw), h (g, c, v) (Or.inr rfl)⟩
  · rintro ⟨h1, h2⟩ w (hw | rfl)
    · exact h1 w hw
    · exact h2

theorem syncStep_queue (cfg : Config) (s : State) (e : Engine) (p n : ℕ) (nb pb x : ℚ)
    (he : queueUntouched e) : queueUntouched (syncStep cfg s e p n nb pb x).2 := by
  unfold syncStep
  dsimp only
  split_ifs <;> simp [he]

theorem syncStep_state (cfg : Config) (s : State) (e : Engine) (p n : ℕ) (nb pb x : ℚ) :
    (syncStep cfg s e p n nb pb x).1.skips = s.skips ∧
      (syncStep cfg s e p n nb pb x).1.refineWait = s.refineWait ∧
      (syncStep cfg s e p n nb pb x).1.currMaxBpmAdj = s.currMaxBpmAdj := by
  unfold syncStep
  dsimp only
  split_ifs <;> simp

theorem fadeInProgress_queue (cfg : Config) (s : State) (e : Engine) (p n : ℕ) (nb pb : ℚ)
    (he : queueUntouched e) : queueUntouched (fadeInProgress cfg s e p n nb pb).2 := by
  unfold fadeInProgress quickEffectFade
  dsimp only
  split_ifs <;> simp [he, syncStep_queue]

theorem fadeInProgress_state (cfg : Config) (s : State) (e : Engine) (p n : ℕ) (nb pb : ℚ) :
    (fadeInProgress cfg s e p n nb pb).1.skips = s.skips ∧
      (fadeInProgress cfg s e p n nb pb).1.refineWait = s.refineWait ∧
      (fadeInProgress cfg s e p n nb pb).1.currMaxBpmAdj = s.currMaxBpmAdj := by
  unfold fadeInProgress
  dsimp only
  split_ifs <;> first | exact syncStep_state _ _ _ _ _ _ _ _ | exact ⟨rfl, rfl, rfl⟩

theorem main_of_fade (cfg : Config) (s : State) (bus : Bus)
    (h : bus (.Channel (nextDeck bus)) .play_indicator ≠ 0 ∧ nextPos bus > 0) :
    main cfg s bus =
      fadeInProgress cfg s ⟨bus, []⟩ (prevDeck bus) (nextDeck bus)
        (bus (.Channel (nextDeck bus)) .file_bpm) (bus (.Channel (prevDeck bus)) .file_bpm) := by
  simp only [main, getValue_mk]
  rw [if_pos h]

theorem main_of_falsely_playing (cfg : Config) (s : State) (bus : Bus)
    (h1 : bus (.Channel (nextDeck bus)) .play_indicator ≠ 0) (h2 : ¬ nextPos bus > 0) :
    main cfg s bus = (s, ⟨bus, []⟩) := by
  simp only [main, getValue_mk]
  rw [if_neg (fun h => h2 h.2), if_neg (not_not.2 h1)]

theorem main_of_stopped (cfg : Config) (s : State) (bus : Bus)
    (h : bus (.Channel (nextDeck bus)) .play_indicator = 0) :
    main cfg s bus =
      trackSelection cfg s ⟨bus, []⟩ (prevDeck bus) (nextDeck bus)
        (bus (.Channel (nextDeck bus)) .file_bpm) (bus (.Channel (prevDeck bus)) .file_bpm) := by
  simp only [main, getValue_mk]
  rw [if_neg (fun h' => h'.1 h), if_pos (not_not.2 h)]

theorem main_of_waiting (cfg : Config) (s : State) (bus : Bus)
    (h : bus (.Channel (nextDeck bus)) .play_indicator = 0) (hw : refineWaiting cfg s) :
    main cfg s bus = ({ s with refineWait := s.refineWait + 1 }, ⟨bus, []⟩) := by
  rw [main_of_stopped cfg s bus h, trackSelection, if_pos hw]

theorem not_skipRequested_of_not_runsSelection (cfg : Config) (s : State) (bus : Bus)
    (h : ¬ runsSelection cfg s bus) : ¬ skipRequested cfg s bus := by
  unfold skipRequested
  by_cases hp : bus (.Channel (nextDeck bus)) .play_indicator = 0
  · have hw : refineWaiting cfg s := by
      by_contra hw
      exact h ⟨hp, hw⟩
    rw [main_of_waiting cfg s bus hp hw]
    simp
  · by_cases hpos : nextPos bus > 0
    · rw [main_of_fade cfg s bus ⟨hp, hpos⟩]
      intro hm
      exact fadeInProgress_queue cfg s ⟨bus, []⟩ _ _ _ _ (by simp [queueUntouched]) _ hm rfl
    · rw [main_of_falsely_playing cfg s bus hp hpos]
      simp

/-- The global variables other than `syncing` on a tick that does not run the
selection logic: only `refineWait` may change. -/
theorem main_state_of_not_runsSelection (cfg : Config) (s : State) (bus : Bus)
    (h : ¬ runsSelection cfg s bus) :
    (main cfg s bus).1.skips = s.skips ∧
      (main cfg s bus).1.currMaxBpmAdj = s.currMaxBpmAdj := by
  by_cases hp : bus (.Channel (nextDeck bus)) .play_indicator = 0
  · have hw : refineWaiting cfg s := by
      by_contra hw
      exact h ⟨hp, hw⟩
    rw [main_of_waiting cfg s bus hp hw]
    exact ⟨rfl, rfl⟩
  · by_cases hpos : nextPos bus > 0
    · rw [main_of_fade cfg s bus ⟨hp, hpos⟩]
      exact ⟨(fadeInProgress_state _ _ _ _ _ _ _).1, (fadeInProgress_state _ _ _ _ _ _ _).2.2⟩
    · rw [main_of_falsely_playing cfg s bus hp hpos]
      exact ⟨rfl, rfl⟩

theorem skipBranch_state (cfg : Config) (s : State) (e : Engine) :
    (skipBranch cfg s e).1 =
      { s with
        skips := if s.skips + 1 = cfg.skipsTillSurrender then 0 else s.skips + 1
        currMaxBpmAdj :=
          if s.skips + 1 = cfg.skipsTillSurrender ∧ cfg.adaptiveBpmSearch = true ∧
              s.currMaxBpmAdj < cfg.maxBpmAdjustment - 1 / 10
          then s.currMaxBpmAdj + cfg.maxBpmAdjustment / 4 else s.currMaxBpmAdj } := by
  unfold skipBranch
  dsimp only
  split_ifs <;> simp_all <;> linarith

theorem acceptBranch_state (cfg : Config) (s : State) (e : Engine) (p n : ℕ) (nb pb : ℚ) :
    (acceptBranch cfg s e p n nb pb).1 =
      { s with
        currMaxBpmAdj :=
          if cfg.adaptiveBpmSearch = true then cfg.maxBpmAdjustment / 4
          else s.currMaxBpmAdj } := by
  unfold acceptBranch
  dsimp only
  split_ifs <;> rfl

/-- The global variables after a rejecting tick. -/
theorem main_state_of_skipRequested (cfg : Config) (s : State) (bus : Bus)
    (h : skipRequested cfg s bus) :
    (main cfg s bus).1 =
      { syncing := false
        refineWait := 0
        skips := if s.skips + 1 = cfg.skipsTillSurrender then 0 else s.skips + 1
        currMaxBpmAdj :=
          if s.skips + 1 = cfg.skipsTillSurrender ∧ cfg.adaptiveBpmSearch = true ∧
              s.currMaxBpmAdj < cfg.maxBpmAdjustment - 1 / 10
          then s.currMaxBpmAdj + cfg.maxBpmAdjustment / 4 else s.currMaxBpmAdj } := by
  have hr : runsSelection cfg s bus := by
    by_contra hr
    exact not_skipRequested_of_not_runsSelection cfg s bus hr h
  rw [skipRequested_iff cfg s bus hr] at h
  rw [main_of_runsSelection cfg s bus hr, selection_of_skipTest_true _ _ _ _ _ _ _ h,
    skipBranch_state, cleanUp_state]

/-- The global variables after an accepting tick. -/
theorem main_state_of_accepts (cfg : Config) (s : State) (bus : Bus)
    (h : accepts cfg s bus) :
    (main cfg s bus).1 =
      { syncing := false
        refineWait := 0
        skips := s.skips
        currMaxBpmAdj :=
          if cfg.adaptiveBpmSearch = true then cfg.maxBpmAdjustment / 4
          else s.currMaxBpmAdj } := by
  obtain ⟨hr, hs⟩ := h
  rw [skipRequested_iff cfg s bus hr, Bool.not_eq_true] at hs
  rw [main_of_runsSelection cfg s bus hr, selection_of_skipTest_false _ _ _ _ _ _ _ hs,
    acceptBranch_state, cleanUp_state]

/-- The tolerance of every reachable state is a quarter, a half, three quarters or the
whole of the configured maximum. -/
theorem reachable_currMaxBpmAdj (cfg : Config) (s : State) (h : Reachable cfg s) :
    s.currMaxBpmAdj = cfg.maxBpmAdjustment / 4 ∨ s.currMaxBpmAdj = cfg.maxBpmAdjustment / 2 ∨
      s.currMaxBpmAdj = 3 * cfg.maxBpmAdjustment / 4 ∨
      s.currMaxBpmAdj = cfg.maxBpmAdjustment := by
  induction h with
  | initial => exact Or.inr (Or.inr (Or.inr rfl))
  | tick s bus _ ih =>
    by_cases hr : runsSelection cfg s bus
    · by_cases hs : skipRequested cfg s bus
      · rw [main_state_of_skipRequested cfg s bus hs]
        dsimp only
        split_ifs with hc
        · obtain ⟨-, -, hlt⟩ := hc
          rcases ih with ih | ih | ih | ih
          · right; left; rw [ih]; ring
          · right; right; left; rw [ih]; ring
          · right; right; right; rw [ih]; ring
          · rw [ih] at hlt; linarith
        · exact ih
      · rw [main_state_of_accepts cfg s bus ⟨hr, hs⟩]
        dsimp only
        split_ifs
        · exact Or.inl rfl
        · exact ih
    · rw [(main_state_of_not_runsSelection cfg s bus hr).2]
      exact ih

/-- With a surrender threshold of at least 1, the skip count of every reachable state
is below the threshold. -/
theorem reachable_skips (cfg : Config) (hT : 1 ≤ cfg.skipsTillSurrender) (s : State)
    (h : Reachable cfg s) : s.skips < cfg.skipsTillSurrender := by
  induction h with
  | initial => exact hT
  | tick s bus _ ih =>
    by_cases hs : skipRequested cfg s bus
    · rw [main_state_of_skipRequested cfg s bus hs]
      dsimp only
      split_ifs with hc
      · exact hT
      · omega
    · by_cases hr : runsSelection cfg s bus
      · rw [main_state_of_accepts cfg s bus ⟨hr, hs⟩]
        exact ih
      · rw [(main_state_of_not_runsSelection cfg s bus hr).1]
        exact ih

theorem succ_mod_cases (k m : ℕ) (hm : 0 < m) :
    (k + 1) % m = if k % m + 1 = m then 0 else k % m + 1 := by
  have hlt : k % m < m := Nat.mod_lt k hm
  have hk : k + 1 = m * (k / m) + (k % m + 1) := by
    have := Nat.div_add_mod k m
    omega
  split_ifs with h
  · rw [hk, h, Nat.mul_add_mod, Nat.mod_self]
  · rw [hk, Nat.mul_add_mod, Nat.mod_eq_of_lt (by omega)]

theorem refineWaiting_iff (cfg : Config) (s : State) (hS : 0 < cfg.sleepDuration) :
    refineWaiting cfg s ↔ s.refineWait < ⌈cfg.refineDuration / cfg.sleepDuration⌉₊ := by
  unfold refineWaiting
  rw [Nat.lt_ceil, lt_div_iff₀ hS]

theorem main_refineWait_of_runsSelection (cfg : Config) (s : State) (bus : Bus)
    (h : runsSelection cfg s bus) : (main cfg s bus).1.refineWait = 0 := by
  by_cases hs : skipRequested cfg s bus
  · rw [main_state_of_skipRequested cfg s bus hs]
  · rw [main_state_of_accepts cfg s bus ⟨h, hs⟩]

/-- During a run of ticks with the incoming deck stopped, `refineWait` counts the ticks
modulo `N + 1`, where `N` is the refine duration in ticks, rounded up. -/
theorem runState_refineWait (cfg : Config) (hS : 0 < cfg.sleepDuration) (buses : ℕ → Bus)
    (s₀ : State) (h₀ : s₀.refineWait = 0)
    (hb : ∀ k, buses k (.Channel (nextDeck (buses k))) .play_indicator = 0) (k : ℕ) :
    (runState cfg buses s₀ k).refineWait =
      k % (⌈cfg.refineDuration / cfg.sleepDuration⌉₊ + 1) := by
  induction k with
  | zero => simpa [runState] using h₀
  | succ k ih =>
    have hpos : 0 < ⌈cfg.refineDuration / cfg.sleepDuration⌉₊ + 1 := Nat.succ_pos _
    have hlt := Nat.mod_lt k hpos
    rw [succ_mod_cases _ _ hpos]
    simp only [runState]
    by_cases hw : refineWaiting cfg (runState cfg buses s₀ k)
    · rw [main_of_waiting cfg _ _ (hb k) hw]
      rw [refineWaiting_iff cfg _ hS, ih] at hw
      simp only [ih]
      rw [if_neg (by omega)]
    · rw [main_refineWait_of_runsSelection cfg _ _ ⟨hb k, hw⟩]
      rw [refineWaiting_iff cfg _ hS, ih] at hw
      rw [if_pos (by omega)]

theorem ceil_500_200 : ⌈(500 : ℚ) / 200⌉₊ = 3 := by
  rw [Nat.ceil_eq_iff (by decide)]
  norm_num

/-! ## Writes to one control -/

@[simp] theorem written_setValue (e : Engine) (g g' : Group) (c c' : Control) (v : ℚ) :
    (e.setValue g' c' v).written g c =
      e.written g c ++ (if g' = g ∧ c' = c then [v] else []) := by
  unfold Engine.written
  by_cases h : g' = g ∧ c' = c <;> simp [List.filter_append, List.filter_cons, h]

@[simp] theorem written_mk_nil (b : Bus) (g : Group) (c : Control) :
    (Engine.mk b []).written g c = [] := rfl

theorem writtenTo_eq (cfg : Config) (s : State) (bus : Bus) (g : Group) (c : Control) :
    writtenTo cfg s bus g c = (main cfg s bus).2.written g c := rfl

theorem cleanUp_written_sync_mode (cfg : Config) (s : State) (e : Engine) (p n : ℕ) (pb : ℚ)
    (g : Group) :
    (cleanUp cfg s e p n pb).2.written g .sync_mode =
      e.written g .sync_mode ++
        (if s.syncing = true then
          (if Group.Channel p = g then [(0 : ℚ)] else []) ++
            (if Group.Channel n = g then [(0 : ℚ)] else [])
        else []) := by
  unfold cleanUp
  cases cfg.bpmSyncFade <;> cases s.syncing <;> cases cfg.fadeQuickEffect <;> simp

theorem skipBranch_written_sync_mode (cfg : Config) (s : State) (e : Engine) (g : Group) :
    (skipBranch cfg s e).2.written g .sync_mode = e.written g .sync_mode := by
  unfold skipBranch
  dsimp only
  split_ifs <;> simp

theorem acceptBranch_written_sync_mode (cfg : Config) (s : State) (e : Engine) (p n : ℕ)
    (nb pb : ℚ) (g : Group) :
    (acceptBranch cfg s e p n nb pb).2.written g .sync_mode = e.written g .sync_mode := by
  unfold acceptBranch
  dsimp only
  split_ifs <;> simp

theorem selection_written_sync_mode (cfg : Config) (s : State) (e : Engine) (p n : ℕ)
    (nb pb : ℚ) (g : Group) :
    (selection cfg s e p n nb pb).2.written g .sync_mode =
      e.written g .sync_mode ++
        (if s.syncing = true then
          (if Group.Channel p = g then [(0 : ℚ)] else []) ++
            (if Group.Channel n = g then [(0 : ℚ)] else [])
        else []) := by
  cases h : skipTest cfg s e p n nb pb
  · rw [selection_of_skipTest_false _ _ _ _ _ _ _ h, acceptBranch_written_sync_mode,
      cleanUp_written_sync_mode]
  · rw [selection_of_skipTest_true _ _ _ _ _ _ _ h, skipBranch_written_sync_mode,
      cleanUp_written_sync_mode]

theorem main_syncing_of_runsSelection (cfg : Config) (s : State) (bus : Bus)
    (h : runsSelection cfg s bus) : (main cfg s bus).1.syncing = false := by
  by_cases hs : skipRequested cfg s bus
  · rw [main_state_of_skipRequested cfg s bus hs]
  · rw [main_state_of_accepts cfg s bus ⟨h, hs⟩]

/-- An accepted track is within the tolerance after the gradual-mode adjustment. -/
theorem abs_nextBpmAdjusted_sub_le (cfg : Config) (nb pb t : ℚ)
    (hf : cfg.bpmSyncFade = true) (h : min (diffBpm nb pb) (diffBpmDouble nb pb) ≤ t) :
    |nextBpmAdjusted cfg nb pb - nb| ≤ t := by
  unfold nextBpmAdjusted
  rw [if_pos hf]
  by_cases hd : diffBpmDouble nb pb < diffBpm nb pb
  · rw [if_pos hd, min_eq_right hd.le] at *
    unfold diffBpmDouble at h
    by_cases hlt : nb < pb
    · rw [if_pos hlt] at h ⊢
      have e1 : pb / 2 - nb = -(2 * nb - pb) / 2 := by ring
      rw [e1, abs_div, abs_neg, abs_two]
      have := abs_nonneg (2 * nb - pb)
      linarith
    · rw [if_neg hlt] at h ⊢
      have e1 : pb * 2 - nb = 2 * pb - nb := by ring
      rw [e1]
      exact h
  · rw [if_neg hd]
    rw [min_eq_left (not_lt.1 hd)] at h
    unfold diffBpm at h
    rw [abs_sub_comm]
    exact h

/-! ## The fade branch -/

theorem mem_written (e : Engine) (g : Group) (c : Control) (v : ℚ) :
    v ∈ e.written g c ↔ (g, c, v) ∈ e.writes := by
  unfold Engine.written
  simp only [List.mem_map, List.mem_filter, decide_eq_true_eq]
  constructor
  · rintro ⟨⟨g', c', v'⟩, ⟨hm, hg, hc⟩, hv⟩
    simp only at hg hc hv
    subst hg hc hv
    exact hm
  · intro h
    exact ⟨(g, c, v), ⟨h, rfl, rfl⟩, rfl⟩

theorem fadeInProgress_eq (cfg : Config) (s : State) (e : Engine) (p n : ℕ) (nb pb : ℚ) :
    fadeInProgress cfg s e p n nb pb =
      ((if cfg.bpmSync then
          syncStep cfg s (lowTaper cfg e p n) p n nb pb (normCrossfader (lowTaper cfg e p n) n)
        else (s, lowTaper cfg e p n)).1,
        if cfg.fadeQuickEffect then
          quickEffectFade cfg
            (keyAdjust cfg
              (if cfg.bpmSync then
                syncStep cfg s (lowTaper cfg e p n) p n nb pb
                  (normCrossfader (lowTaper cfg e p n) n)
              else (s, lowTaper cfg e p n)).2 p n (normCrossfader (lowTaper cfg e p n) n))
            p n (normCrossfader (lowTaper cfg e p n) n)
        else
          keyAdjust cfg
            (if cfg.bpmSync then
              syncStep cfg s (lowTaper cfg e p n) p n nb pb
                (normCrossfader (lowTaper cfg e p n) n)
            else (s, lowTaper cfg e p n)).2 p n (normCrossfader (lowTaper cfg e p n) n)) := rfl

theorem lowTaper_getValue (cfg : Config) (e : Engine) (p n : ℕ) (g : Group) (c : Control)
    (hc : c ≠ .filterLow) : (lowTaper cfg e p n).getValue g c = e.getValue g c := by
  unfold lowTaper
  split_ifs <;> simp [hc]

theorem lowTaper_written (cfg : Config) (e : Engine) (p n : ℕ) (g : Group) (c : Control)
    (hc : c ≠ .filterLow) : (lowTaper cfg e p n).written g c = e.written g c := by
  unfold lowTaper
  split_ifs <;> simp [hc.symm]

theorem normCrossfader_lowTaper (cfg : Config) (e : Engine) (p n : ℕ) :
    normCrossfader (lowTaper cfg e p n) n = normCrossfader e n := by
  unfold normCrossfader
  rw [lowTaper_getValue _ _ _ _ _ _ (by decide)]

theorem keyAdjust_written (cfg : Config) (e : Engine) (p n : ℕ) (x : ℚ) (g : Group)
    (c : Control) (hc : c ≠ .key) : (keyAdjust cfg e p n x).written g c = e.written g c := by
  unfold keyAdjust
  split_ifs <;> simp [hc.symm]

theorem quickEffectFade_written (cfg : Config) (e : Engine) (p n : ℕ) (x : ℚ) (g : Group)
    (c : Control) (hc : c ≠ .super1) :
    (quickEffectFade cfg e p n x).written g c = e.written g c := by
  unfold quickEffectFade
  dsimp only
  split_ifs <;> simp [hc.symm]

theorem syncStep_syncing (cfg : Config) (s : State) (e : Engine) (p n : ℕ) (nb pb x : ℚ) :
    (syncStep cfg s e p n nb pb x).1.syncing =
      syncingAfter cfg s.syncing x (e.getValue (.Channel p) .beat_active) := by
  unfold syncStep syncingAfter
  dsimp only
  split_ifs <;> simp_all

theorem syncStep_written_bpm (cfg : Config) (s : State) (e : Engine) (p n : ℕ)
    (nb pb x : ℚ) (g : Group) :
    (syncStep cfg s e p n nb pb x).2.written g .bpm =
      e.written g .bpm ++
        (if cfg.bpmSyncFade = true ∧
            syncingAfter cfg s.syncing x (e.getValue (.Channel p) .beat_active) = true ∧
            Group.Channel p = g then
          [e.getValue (.Channel p) .bpm +
            1 / 4 * x * (desiredBpm nb pb - e.getValue (.Channel p) .bpm)]
        else []) := by
  unfold syncStep syncingAfter desiredBpm
  dsimp only
  split_ifs <;> simp_all

theorem syncStep_written_other (cfg : Config) (s : State) (e : Engine) (p n : ℕ)
    (nb pb x : ℚ) (g : Group) (c : Control) (h1 : c ≠ .sync_enabled) (h2 : c ≠ .sync_mode)
    (h3 : c ≠ .bpm) : (syncStep cfg s e p n nb pb x).2.written g c = e.written g c := by
  unfold syncStep
  dsimp only
  split_ifs <;> simp [h1.symm, h2.symm, h3.symm]

theorem quickEffectFade_written_super1 (cfg : Config) (e : Engine) (p n : ℕ) (x : ℚ)
    (hpn : p ≠ n) :
    (quickEffectFade cfg e p n x).written (.QuickEffectRack1 p) .super1 =
        e.written (.QuickEffectRack1 p) .super1 ++
          [if cfg.reverseQuickEffect = true then
            1 / 2 - x * cfg.fadeRange / 2 + cfg.fadeRange / 2
          else 1 / 2 - x * cfg.fadeRange / 2] ∧
      (quickEffectFade cfg e p n x).written (.QuickEffectRack1 n) .super1 =
        e.written (.QuickEffectRack1 n) .super1 ++
          [if cfg.reverseQuickEffect = true then 1 / 2 - x * cfg.fadeRange / 2
          else 1 / 2 - x * cfg.fadeRange / 2 + cfg.fadeRange / 2] := by
  unfold quickEffectFade
  dsimp only
  cases cfg.reverseQuickEffect <;> simp [hpn, hpn.symm]

theorem progress_eq (cfg : Config) (bus : Bus) :
    normCrossfader (lowTaper cfg ⟨bus, []⟩ (prevDeck bus) (nextDeck bus)) (nextDeck bus) =
      progress bus := normCrossfader_lowTaper _ _ _ _

/-- The `syncing` flag after a fade tick. -/
theorem main_fade_syncing (cfg : Config) (s : State) (bus : Bus) (h : fadeTick bus) :
    (main cfg s bus).1.syncing =
      if cfg.bpmSync = true then
        syncingAfter cfg s.syncing (progress bus) (bus (.Channel (prevDeck bus)) .beat_active)
      else s.syncing := by
  rw [main_of_fade cfg s bus h, fadeInProgress_eq]
  dsimp only
  split_ifs
  · rw [syncStep_syncing, progress_eq, lowTaper_getValue _ _ _ _ _ _ (by decide), getValue_mk]
  · rfl

/-- The writes of a fade tick to the leading deck's live tempo. -/
theorem main_fade_written_bpm (cfg : Config) (s : State) (bus : Bus) (h : fadeTick bus) :
    writtenTo cfg s bus (.Channel (prevDeck bus)) .bpm =
      if cfg.bpmSync = true ∧ cfg.bpmSyncFade = true ∧ (main cfg s bus).1.syncing = true then
        [bus (.Channel (prevDeck bus)) .bpm +
          1 / 4 * progress bus *
            (desiredBpm (bus (.Channel (nextDeck bus)) .file_bpm)
                (bus (.Channel (prevDeck bus)) .file_bpm) -
              bus (.Channel (prevDeck bus)) .bpm)]
      else [] := by
  rw [main_fade_syncing cfg s bus h, writtenTo_eq, main_of_fade cfg s bus h, fadeInProgress_eq]
  dsimp only
  have hq : ∀ e : Engine,
      (if cfg.fadeQuickEffect = true then
          quickEffectFade cfg (keyAdjust cfg e (prevDeck bus) (nextDeck bus) (progress bus))
            (prevDeck bus) (nextDeck bus) (progress bus)
        else keyAdjust cfg e (prevDeck bus) (nextDeck bus) (progress bus)).written
          (.Channel (prevDeck bus)) .bpm = e.written (.Channel (prevDeck bus)) .bpm := by
    intro e
    split_ifs
    · rw [quickEffectFade_written _ _ _ _ _ _ _ (by decide),
        keyAdjust_written _ _ _ _ _ _ _ (by decide)]
    · rw [keyAdjust_written _ _ _ _ _ _ _ (by decide)]
  rw [progress_eq, hq]
  by_cases hb : cfg.bpmSync = true
  · simp only [hb, if_true, true_and]
    rw [syncStep_written_bpm, lowTaper_written _ _ _ _ _ _ (by decide),
      lowTaper_getValue _ _ _ _ _ _ (by decide), lowTaper_getValue _ _ _ _ _ _ (by decide)]
    simp
  · rw [if_neg hb, if_neg (fun hc => hb hc.1), lowTaper_written _ _ _ _ _ _ (by decide)]
    rfl

/-- The writes of a fade tick to the Quick Effect controls of both decks. -/
theorem main_fade_written_super1 (cfg : Config) (s : State) (bus : Bus) (h : fadeTick bus)
    (hq : cfg.fadeQuickEffect = true) :
    writtenTo cfg s bus (.QuickEffectRack1 (prevDeck bus)) .super1 =
        [if cfg.reverseQuickEffect = true then
          1 / 2 - progress bus * cfg.fadeRange / 2 + cfg.fadeRange / 2
        else 1 / 2 - progress bus * cfg.fadeRange / 2] ∧
      writtenTo cfg s bus (.QuickEffectRack1 (nextDeck bus)) .super1 =
        [if cfg.reverseQuickEffect = true then 1 / 2 - progress bus * cfg.fadeRange / 2
        else 1 / 2 - progress bus * cfg.fadeRange / 2 + cfg.fadeRange / 2] := by
  have hpn := prevDeck_ne_nextDeck bus
  have hk : ∀ (e : Engine) (g : Group),
      (keyAdjust cfg e (prevDeck bus) (nextDeck bus) (progress bus)).written g .super1 =
        e.written g .super1 := fun e g => keyAdjust_written _ _ _ _ _ _ _ (by decide)
  have hs : ∀ g : Group,
      (if cfg.bpmSync = true then
          syncStep cfg s (lowTaper cfg ⟨bus, []⟩ (prevDeck bus) (nextDeck bus)) (prevDeck bus)
            (nextDeck bus) (bus (.Channel (nextDeck bus)) .file_bpm)
            (bus (.Channel (prevDeck bus)) .file_bpm) (progress bus)
        else (s, lowTaper cfg ⟨bus, []⟩ (prevDeck bus) (nextDeck bus))).2.written g .super1
        = [] := by
    intro g
    split_ifs
    · rw [syncStep_written_other _ _ _ _ _ _ _ _ _ _ (by decide) (by decide) (by decide),
        lowTaper_written _ _ _ _ _ _ (by decide)]
      rfl
    · rw [lowTaper_written _ _ _ _ _ _ (by decide)]
      rfl
  rw [writtenTo_eq, writtenTo_eq, main_of_fade cfg s bus h, fadeInProgress_eq]
  dsimp only
  rw [progress_eq, if_pos hq, (quickEffectFade_written_super1 cfg _ _ _ _ hpn).1,
    (quickEffectFade_written_super1 cfg _ _ _ _ hpn).2, hk, hk, hs, hs]
  exact ⟨rfl, rfl⟩

/-- A tick that starts not syncing and whose progress, if it is a fade tick, is not below
0.75 ends not syncing. -/
theorem main_syncing_stays_false (cfg : Config) (s : State) (bus : Bus)
    (hs : s.syncing = false) (hp : fadeTick bus → 3 / 4 ≤ progress bus) :
    (main cfg s bus).1.syncing = false := by
  by_cases hf : fadeTick bus
  · rw [main_fade_syncing cfg s bus hf]
    split_ifs
    · unfold syncingAfter
      rw [hs, if_neg (by simp), if_neg (fun hc => absurd hc.1 (not_lt.2 (hp hf)))]
    · exact hs
  · by_cases hpl : bus (.Channel (nextDeck bus)) .play_indicator = 0
    · by_cases hw : refineWaiting cfg s
      · rw [main_of_waiting cfg s bus hpl hw]
        exact hs
      · exact main_syncing_of_runsSelection cfg s bus ⟨hpl, hw⟩
    · have hpos : ¬ nextPos bus > 0 := fun hc => hf ⟨hpl, hc⟩
      rw [main_of_falsely_playing cfg s bus hpl hpos]
      exact hs

theorem syncStep_written_sync_enabled (cfg : Config) (s : State) (e : Engine) (p n : ℕ)
    (nb pb x : ℚ) (g : Group) :
    (syncStep cfg s e p n nb pb x).2.written g .sync_enabled =
      e.written g .sync_enabled ++
        (if x > 3 / 4 ∧ s.syncing = true then
          if cfg.bpmSyncFade = true then (if Group.Channel n = g then [(2 : ℚ)] else [])
          else (if Group.Channel p = g then [(2 : ℚ)] else [])
        else if x < 3 / 4 ∧ s.syncing = false then
          if cfg.bpmSyncFade = true then (if Group.Channel n = g then [(1 : ℚ)] else [])
          else if e.getValue (.Channel p) .beat_active ≠ 0 then
            (if Group.Channel p = g then [(1 : ℚ)] else [])
          else []
        else []) := by
  unfold syncStep
  dsimp only
  split_ifs <;> simp_all

/-- Writes of a fade tick to a control that only the synchronisation block may write. -/
theorem main_fade_written (cfg : Config) (s : State) (bus : Bus) (h : fadeTick bus)
    (g : Group) (c : Control) (h1 : c ≠ .filterLow) (h2 : c ≠ .key) (h3 : c ≠ .super1) :
    writtenTo cfg s bus g c =
      if cfg.bpmSync = true then
        (syncStep cfg s (lowTaper cfg ⟨bus, []⟩ (prevDeck bus) (nextDeck bus)) (prevDeck bus)
          (nextDeck bus) (bus (.Channel (nextDeck bus)) .file_bpm)
          (bus (.Channel (prevDeck bus)) .file_bpm) (progress bus)).2.written g c
      else [] := by
  rw [writtenTo_eq, main_of_fade cfg s bus h, fadeInProgress_eq]
  dsimp only
  have hq : ∀ e : Engine,
      (if cfg.fadeQuickEffect = true then
          quickEffectFade cfg (keyAdjust cfg e (prevDeck bus) (nextDeck bus) (progress bus))
            (prevDeck bus) (nextDeck bus) (progress bus)
        else keyAdjust cfg e (prevDeck bus) (nextDeck bus) (progress bus)).written g c =
        e.written g c := by
    intro e
    split_ifs
    · rw [quickEffectFade_written _ _ _ _ _ _ _ h3, keyAdjust_written _ _ _ _ _ _ _ h2]
    · rw [keyAdjust_written _ _ _ _ _ _ _ h2]
  rw [progress_eq, hq]
  by_cases hb : cfg.bpmSync = true
  · rw [if_pos hb, if_pos hb]
  · rw [if_neg hb, if_neg hb, lowTaper_written _ _ _ _ _ _ h1]
    rfl

theorem cleanUp_written_sync_enabled (cfg : Config) (s : State) (e : Engine) (p n : ℕ)
    (pb : ℚ) (g : Group) :
    (cleanUp cfg s e p n pb).2.written g .sync_enabled = e.written g .sync_enabled := by
  unfold cleanUp
  cases cfg.bpmSyncFade <;> cases s.syncing <;> cases cfg.fadeQuickEffect <;> simp

theorem selection_written_sync_enabled (cfg : Config) (s : State) (e : Engine) (p n : ℕ)
    (nb pb : ℚ) (g : Group) :
    (selection cfg s e p n nb pb).2.written g .sync_enabled = e.written g .sync_enabled := by
  cases h : skipTest cfg s e p n nb pb
  · rw [selection_of_skipTest_false _ _ _ _ _ _ _ h, ← cleanUp_written_sync_enabled cfg s e p n pb]
    unfold acceptBranch
    dsimp only
    split_ifs <;> simp
  · rw [selection_of_skipTest_true _ _ _ _ _ _ _ h, ← cleanUp_written_sync_enabled cfg s e p n pb]
    unfold skipBranch
    dsimp only
    split_ifs <;> simp

/-- Only fade ticks write `sync_enabled`. -/
theorem written_sync_enabled_of_not_fadeTick (cfg : Config) (s : State) (bus : Bus)
    (hf : ¬ fadeTick bus) (g : Group) : writtenTo cfg s bus g .sync_enabled = [] := by
  rw [writtenTo_eq]
  by_cases hpl : bus (.Channel (nextDeck bus)) .play_indicator = 0
  · by_cases hw : refineWaiting cfg s
    · rw [main_of_waiting cfg s bus hpl hw]
      rfl
    · rw [main_of_runsSelection cfg s bus ⟨hpl, hw⟩, selection_written_sync_enabled]
      rfl
  · have hpos : ¬ nextPos bus > 0 := fun hc => hf ⟨hpl, hc⟩
    rw [main_of_falsely_playing cfg s bus hpl hpos]
    rfl

/-- The writes of a fade tick to `sync_enabled`. -/
theorem main_fade_written_sync_enabled (cfg : Config) (s : State) (bus : Bus)
    (h : fadeTick bus) (g : Group) :
    writtenTo cfg s bus g .sync_enabled =
      if cfg.bpmSync = true then
        if progress bus > 3 / 4 ∧ s.syncing = true then
          if cfg.bpmSyncFade = true then
            (if Group.Channel (nextDeck bus) = g then [(2 : ℚ)] else [])
          else (if Group.Channel (prevDeck bus) = g then [(2 : ℚ)] else [])
        else if progress bus < 3 / 4 ∧ s.syncing = false then
          if cfg.bpmSyncFade = true then
            (if Group.Channel (nextDeck bus) = g then [(1 : ℚ)] else [])
          else if bus (.Channel (prevDeck bus)) .beat_active ≠ 0 then
            (if Group.Channel (prevDeck bus) = g then [(1 : ℚ)] else [])
          else []
        else []
      else [] := by
  rw [main_fade_written cfg s bus h g _ (by decide) (by decide) (by decide),
    syncStep_written_sync_enabled, lowTaper_written _ _ _ _ _ _ (by decide),
    lowTaper_getValue _ _ _ _ _ _ (by decide)]
  simp

theorem disengages_iff (cfg : Config) (s : State) (bus : Bus) :
    disengages cfg s bus ↔
      fadeTick bus ∧ cfg.bpmSync = true ∧ progress bus > 3 / 4 ∧ s.syncing = true := by
  have hpn := prevDeck_ne_nextDeck bus
  unfold disengages
  by_cases hf : fadeTick bus
  · rw [main_fade_written_sync_enabled cfg s bus hf, main_fade_written_sync_enabled cfg s bus hf]
    by_cases hb : cfg.bpmSync = true
    · by_cases hd : progress bus > 3 / 4 ∧ s.syncing = true
      · cases hg : cfg.bpmSyncFade <;> simp [hf, hb, hd, hpn, hpn.symm]
      · simp only [hf, hb, hd, if_true, if_false, true_and]
        have : ¬ (progress bus > 3 / 4 ∧ s.syncing = true) := hd
        split_ifs <;> simp_all
    · simp [hb]
  · rw [written_sync_enabled_of_not_fadeTick cfg s bus hf,
      written_sync_enabled_of_not_fadeTick cfg s bus hf]
    simp [hf]

theorem engages_iff (cfg : Config) (s : State) (bus : Bus) :
    engages cfg s bus ↔
      fadeTick bus ∧ cfg.bpmSync = true ∧ progress bus < 3 / 4 ∧ s.syncing = false ∧
        (cfg.bpmSyncFade = true ∨ bus (.Channel (prevDeck bus)) .beat_active ≠ 0) := by
  have hpn := prevDeck_ne_nextDeck bus
  unfold engages
  by_cases hf : fadeTick bus
  · rw [main_fade_written_sync_enabled cfg s bus hf, main_fade_written_sync_enabled cfg s bus hf]
    by_cases hb : cfg.bpmSync = true
    · by_cases hd : progress bus > 3 / 4 ∧ s.syncing = true
      · have hns : ¬ s.syncing = false := by simp [hd.2]
        cases hg : cfg.bpmSyncFade <;> simp [hf, hb, hd, hns, hpn, hpn.symm]
      · by_cases he : progress bus < 3 / 4 ∧ s.syncing = false
        · cases hg : cfg.bpmSyncFade
          · by_cases hbeat : bus (.Channel (prevDeck bus)) .beat_active = 0 <;>
              simp [hf, hb, hd, he, hbeat, hpn, hpn.symm]
          · simp [hf, hb, hd, he, hpn, hpn.symm]
        · rw [if_pos hb, if_neg hd, if_neg he, if_pos hb, if_neg hd, if_neg he]
          simp only [List.not_mem_nil, or_self, false_iff]
          rintro ⟨-, -, h1, h2, -⟩
          exact he ⟨h1, h2⟩
    · simp [hb]
  · rw [written_sync_enabled_of_not_fadeTick cfg s bus hf,
      written_sync_enabled_of_not_fadeTick cfg s bus hf]
    simp [hf]

/-- The flag `syncing` goes from false to true only in a tick that engages. -/
theorem engages_of_syncing_rises (cfg : Config) (s : State) (bus : Bus)
    (hs : s.syncing = false) (hs' : (main cfg s bus).1.syncing = true) :
    engages cfg s bus := by
  rw [engages_iff]
  by_cases hf : fadeTick bus
  · rw [main_fade_syncing cfg s bus hf] at hs'
    by_cases hb : cfg.bpmSync = true
    · rw [if_pos hb, syncingAfter, hs, if_neg (by simp)] at hs'
      by_cases hx : progress bus < 3 / 4
      · refine ⟨hf, hb, hx, hs, ?_⟩
        rw [if_pos ⟨hx, by simp⟩] at hs'
        by_contra hc
        rw [not_or] at hc
        rw [if_neg hc.1, if_neg hc.2] at hs'
        exact Bool.false_ne_true hs'
      · rw [if_neg (fun hc => hx hc.1)] at hs'
        exact absurd hs' Bool.false_ne_true
    · rw [if_neg hb, hs] at hs'
      exact absurd hs' Bool.false_ne_true
  · have := main_syncing_stays_false cfg s bus hs (fun hc => absurd hc hf)
    rw [this] at hs'
    exact absurd hs' Bool.false_ne_true

/-- If `syncing` is false at one point of a run and true at a later one, some tick in
between engages. -/
theorem engages_between (cfg : Config) (buses : ℕ → Bus) (s₀ : State) (a d : ℕ)
    (ha : (runState cfg buses s₀ a).syncing = false)
    (hd : (runState cfg buses s₀ (a + d)).syncing = true) :
    ∃ k, a ≤ k ∧ k < a + d ∧ engages cfg (runState cfg buses s₀ k) (buses k) := by
  induction d with
  | zero =>
    rw [Nat.add_zero, ha] at hd
    exact absurd hd Bool.false_ne_true
  | succ d ih =>
    cases hm : (runState cfg buses s₀ (a + d)).syncing
    · exact ⟨a + d, Nat.le_add_right a d, by omega,
        engages_of_syncing_rises cfg _ _ hm hd⟩
    · obtain ⟨k, h1, h2, h3⟩ := ih hm
      exact ⟨k, h1, by omega, h3⟩

theorem keyAdjust_getValue (cfg : Config) (e : Engine) (p n : ℕ) (x : ℚ) (g : Group)
    (c : Control) (hc : c ≠ .key) : (keyAdjust cfg e p n x).getValue g c = e.getValue g c := by
  unfold keyAdjust
  split_ifs <;> simp [hc]

theorem quickEffectFade_getValue (cfg : Config) (e : Engine) (p n : ℕ) (x : ℚ) (g : Group)
    (c : Control) (hc : c ≠ .super1) :
    (quickEffectFade cfg e p n x).getValue g c = e.getValue g c := by
  unfold quickEffectFade
  dsimp only
  split_ifs <;> simp [hc]

theorem syncStep_getValue_bpm (cfg : Config) (s : State) (e : Engine) (p n : ℕ)
    (nb pb x : ℚ) :
    (syncStep cfg s e p n nb pb x).2.getValue (.Channel p) .bpm =
      if cfg.bpmSyncFade = true ∧
          syncingAfter cfg s.syncing x (e.getValue (.Channel p) .beat_active) = true then
        e.getValue (.Channel p) .bpm +
          1 / 4 * x * (desiredBpm nb pb - e.getValue (.Channel p) .bpm)
      else e.getValue (.Channel p) .bpm := by
  unfold syncStep syncingAfter desiredBpm
  dsimp only
  split_ifs <;> simp_all

/-- The leading deck's live tempo in the engine after a fade tick. -/
theorem main_fade_getValue_bpm (cfg : Config) (s : State) (bus : Bus) (h : fadeTick bus) :
    (main cfg s bus).2.getValue (.Channel (prevDeck bus)) .bpm =
      if cfg.bpmSync = true ∧ cfg.bpmSyncFade = true ∧ (main cfg s bus).1.syncing = true then
        bus (.Channel (prevDeck bus)) .bpm +
          1 / 4 * progress bus *
            (desiredBpm (bus (.Channel (nextDeck bus)) .file_bpm)
                (bus (.Channel (prevDeck bus)) .file_bpm) -
              bus (.Channel (prevDeck bus)) .bpm)
      else bus (.Channel (prevDeck bus)) .bpm := by
  rw [main_fade_syncing cfg s bus h, main_of_fade cfg s bus h, fadeInProgress_eq]
  dsimp only
  have hq : ∀ e : Engine,
      (if cfg.fadeQuickEffect = true then
          quickEffectFade cfg (keyAdjust cfg e (prevDeck bus) (nextDeck bus) (progress bus))
            (prevDeck bus) (nextDeck bus) (progress bus)
        else keyAdjust cfg e (prevDeck bus) (nextDeck bus) (progress bus)).getValue
          (.Channel (prevDeck bus)) .bpm = e.getValue (.Channel (prevDeck bus)) .bpm := by
    intro e
    split_ifs
    · rw [quickEffectFade_getValue _ _ _ _ _ _ _ (by decide),
        keyAdjust_getValue _ _ _ _ _ _ _ (by decide)]
    · rw [keyAdjust_getValue _ _ _ _ _ _ _ (by decide)]
  rw [progress_eq, hq]
  by_cases hb : cfg.bpmSync = true
  · simp only [hb, if_true, true_and]
    rw [syncStep_getValue_bpm, lowTaper_getValue _ _ _ _ _ _ (by decide),
      lowTaper_getValue _ _ _ _ _ _ (by decide)]
    rfl
  · rw [if_neg hb, if_neg (fun hc => hb hc.1), lowTaper_getValue _ _ _ _ _ _ (by decide)]
    rfl

/-- In gradual mode a fade tick below the disengage point ends syncing and multiplies the
distance of the leading deck's live tempo to the desired tempo by `1 - progress / 4`. -/
theorem main_fade_gap (cfg : Config) (s : State) (bus : Bus) (h : fadeTick bus)
    (hb : cfg.bpmSync = true) (hg : cfg.bpmSyncFade = true) (hp : progress bus < 3 / 4) :
    (main cfg s bus).1.syncing = true ∧
      (main cfg s bus).2.getValue (.Channel (prevDeck bus)) .bpm -
          desiredBpm (bus (.Channel (nextDeck bus)) .file_bpm)
            (bus (.Channel (prevDeck bus)) .file_bpm) =
        (1 - progress bus / 4) *
          (bus (.Channel (prevDeck bus)) .bpm -
            desiredBpm (bus (.Channel (nextDeck bus)) .file_bpm)
              (bus (.Channel (prevDeck bus)) .file_bpm)) := by
  have hs : (main cfg s bus).1.syncing = true := by
    rw [main_fade_syncing cfg s bus h, if_pos hb, syncingAfter,
      if_neg (fun hc => absurd hc.1 (not_lt.2 hp.le))]
    cases hsy : s.syncing
    · rw [if_pos ⟨hp, by simp⟩, if_pos hg]
    · rw [if_neg (by simp)]
  refine ⟨hs, ?_⟩
  rw [main_fade_getValue_bpm cfg s bus h, if_pos ⟨hb, hg, hs⟩]
  ring

theorem Reachable.of_eq {cfg : Config} {s s' : State} (bus : Bus) (h : Reachable cfg s)
    (he : (main cfg s bus).1 = s') : Reachable cfg s' :=
  he ▸ Reachable.tick s bus h

theorem cleanUp_written_super1 (cfg : Config) (s : State) (e : Engine) (p n : ℕ) (pb : ℚ)
    (hpn : p ≠ n) :
    (cleanUp cfg s e p n pb).2.written (.QuickEffectRack1 n) .super1 =
        e.written (.QuickEffectRack1 n) .super1 ++
          (if cfg.fadeQuickEffect = true then [1 / 2 + cfg.fadeRange / 2] else []) ∧
      (cleanUp cfg s e p n pb).2.written (.QuickEffectRack1 p) .super1 =
        e.written (.QuickEffectRack1 p) .super1 ++
          (if cfg.fadeQuickEffect = true then [1 / 2] else []) := by
  unfold cleanUp
  cases cfg.bpmSyncFade <;> cases s.syncing <;> cases cfg.fadeQuickEffect <;>
    simp [hpn, hpn.symm]

theorem selection_written_super1 (cfg : Config) (s : State) (e : Engine) (p n : ℕ)
    (nb pb : ℚ) (g : Group) :
    (selection cfg s e p n nb pb).2.written g .super1 =
      (cleanUp cfg s e p n pb).2.written g .super1 := by
  cases h : skipTest cfg s e p n nb pb
  · rw [selection_of_skipTest_false _ _ _ _ _ _ _ h]
    unfold acceptBranch
    dsimp only
    split_ifs <;> simp
  · rw [selection_of_skipTest_true _ _ _ _ _ _ _ h]
    unfold skipBranch
    dsimp only
    split_ifs <;> simp

/-- The writes of a selection tick to the Quick Effect controls of both decks. -/
theorem main_selection_written_super1 (cfg : Config) (s : State) (bus : Bus)
    (h : runsSelection cfg s bus) (hq : cfg.fadeQuickEffect = true) :
    writtenTo cfg s bus (.QuickEffectRack1 (nextDeck bus)) .super1 =
        [1 / 2 + cfg.fadeRange / 2] ∧
      writtenTo cfg s bus (.QuickEffectRack1 (prevDeck bus)) .super1 = [1 / 2] := by
  have hpn := prevDeck_ne_nextDeck bus
  rw [writtenTo_eq, writtenTo_eq, main_of_runsSelection cfg s bus h,
    selection_written_super1, selection_written_super1,
    (cleanUp_written_super1 cfg _ _ _ _ _ hpn).1, (cleanUp_written_super1 cfg _ _ _ _ _ hpn).2,
    if_pos hq, if_pos hq]
  exact ⟨rfl, rfl⟩

theorem transpose_range (k : ℕ) (h1 : 1 ≤ k) (h2 : k ≤ 24) :
    1 ≤ transpose k ∧ transpose k ≤ 24 ∧ (transpose k ≤ 12 ↔ k ≤ 12) := by
  unfold transpose
  split_ifs <;> omega

/-- The key test on codes of one tonality, by circular distance. -/
theorem keyTest_same_tonality (p n : ℕ) (hp : 1 ≤ p ∧ p ≤ 24) (hn : 1 ≤ n ∧ n ≤ 24)
    (hs : p ≤ 12 ∧ n ≤ 12 ∨ 13 ≤ p ∧ 13 ≤ n) :
    keyTest (p : ℚ) (n : ℚ) = false ↔
      (min (Nat.dist p n) (12 - Nat.dist p n) = 0 ∨ min (Nat.dist p n) (12 - Nat.dist p n) = 1 ∨
        min (Nat.dist p n) (12 - Nat.dist p n) = 2 ∨
        min (Nat.dist p n) (12 - Nat.dist p n) = 5) := by
  rw [keyTest_natCast]
  unfold Nat.dist
  omega

theorem natKeyRule_transpose :
    ∀ p < 25, ∀ n < 25, 1 ≤ p → 1 ≤ n →
      (natKeyRule (transpose p) (transpose n) ↔ natKeyRule p n) := by
  decide

/-- The key test is invariant under the shift by one semitone. -/
theorem keyTest_transpose (p n : ℕ) (hp : 1 ≤ p ∧ p ≤ 24) (hn : 1 ≤ n ∧ n ≤ 24) :
    keyTest (transpose p : ℚ) (transpose n : ℚ) = false ↔ keyTest (p : ℚ) (n : ℚ) = false := by
  rw [keyTest_natCast, keyTest_natCast]
  exact natKeyRule_transpose p (by omega) n (by omega) hp.1 hn.1

/-- A tick rejects the track exactly when it issues the skip request of line 375. -/
theorem rejects_iff_skipRequested (cfg : Config) (s : State) (bus : Bus) :
    rejects cfg s bus ↔ skipRequested cfg s bus := by
  unfold rejects
  constructor
  · rintro ⟨hr, h⟩
    rw [skipRequested_iff cfg s bus hr, skipTest_iff, ← bpmTest_iff_min]
    exact h
  · intro h
    have hr : runsSelection cfg s bus := by
      by_contra hr
      exact not_skipRequested_of_not_runsSelection cfg s bus hr h
    refine ⟨hr, ?_⟩
    rw [skipRequested_iff cfg s bus hr, skipTest_iff, ← bpmTest_iff_min] at h
    exact h

/-- In a reachable state, for a natural-number maximum or a maximum above 0.4, the
tolerance is below the maximum exactly when it is below the maximum less 0.1. -/
theorem reachable_lt_margin (cfg : Config) (s : State) (hr : Reachable cfg s)
    (hM : (∃ m : ℕ, cfg.maxBpmAdjustment = m) ∨ 2 / 5 < cfg.maxBpmAdjustment) :
    s.currMaxBpmAdj < cfg.maxBpmAdjustment - 1 / 10 ↔
      s.currMaxBpmAdj < cfg.maxBpmAdjustment := by
  have hM' : cfg.maxBpmAdjustment = 0 ∨ 2 / 5 < cfg.maxBpmAdjustment := by
    rcases hM with ⟨m, hm⟩ | hM
    · rcases Nat.eq_zero_or_pos m with h0 | hpos
      · left; rw [hm, h0]; norm_num
      · right
        have : (1 : ℚ) ≤ m := by exact_mod_cast hpos
        rw [hm]; linarith
    · exact Or.inr hM
  rcases hM' with h0 | hM'
  · rcases reachable_currMaxBpmAdj cfg s hr with e | e | e | e <;> rw [e, h0] <;> norm_num
  · rcases reachable_currMaxBpmAdj cfg s hr with e | e | e | e <;> rw [e] <;>
      constructor <;> intro hlt <;> linarith

theorem quick_wait (t a b : ℚ) :
    (main quickConfig (quickState 0 t) (idleBus a b 0 0)).1 = quickState 1 t := by
  rw [main_of_waiting _ _ _ (by norm_num [idleBus, nextDeck])
    (by norm_num [refineWaiting, quickConfig, sourceConfig, quickState])]
  rfl

theorem quick_runs (t a b : ℚ) :
    runsSelection quickConfig (quickState 1 t) (idleBus a b 0 0) := by
  norm_num [runsSelection, refineWaiting, quickConfig, sourceConfig, quickState, idleBus,
    nextDeck]

theorem quick_accept (t : ℚ) (ht : 0 ≤ t) :
    (main quickConfig (quickState 1 t) (idleBus 120 120 0 0)).1 = quickState 0 3 := by
  have hs : ¬ skipRequested quickConfig (quickState 1 t) (idleBus 120 120 0 0) := by
    rw [skipRequested_iff _ _ _ (quick_runs t 120 120), skipTest_iff]
    norm_num [quickConfig, sourceConfig, quickState, idleBus, nextDeck, prevDeck, diffBpm,
      diffBpmDouble, abs_of_nonneg, ht]
  rw [main_state_of_accepts _ _ _ ⟨quick_runs t 120 120, hs⟩]
  norm_num [quickConfig, sourceConfig, quickState]

theorem quick_rejects (t : ℚ) (ht : t < 30) :
    rejects quickConfig (quickState 1 t) (idleBus 120 150 0 0) := by
  refine ⟨quick_runs t 120 150, Or.inl ?_⟩
  have e1 : idleBus 120 150 0 0 (.Channel (nextDeck (idleBus 120 150 0 0))) .file_bpm = 150 := by
    norm_num [idleBus, nextDeck]
  have e2 : idleBus 120 150 0 0 (.Channel (prevDeck (idleBus 120 150 0 0))) .file_bpm = 120 := by
    norm_num [idleBus, prevDeck]
  have h1 : diffBpm 150 120 = 30 := by norm_num [diffBpm, abs_of_nonneg]
  have h2 : diffBpmDouble 150 120 = 90 := by norm_num [diffBpmDouble, abs_of_nonneg]
  rw [e1, e2, h1, h2]
  have e3 : (quickState 1 t).currMaxBpmAdj = t := rfl
  rw [e3]
  exact ⟨ht, by linarith⟩

/-- With `quickConfig` the tolerance 3 is reached from the initial state by one accepted
track. -/
theorem quick_reachable : Reachable quickConfig (quickState 1 3) := by
  have h0 : Reachable quickConfig (quickState 0 12) := Reachable.initial
  have h1 := h0.of_eq _ (quick_wait 12 120 120)
  have h2 := h1.of_eq _ (quick_accept 12 (by norm_num))
  exact h2.of_eq _ (quick_wait 3 120 150)

theorem readyState_rejects (k : ℕ) :
    rejects adaptiveConfig { readyState 12 with skips := k } (idleBus 128 170 0 0) := by
  have hr : runsSelection adaptiveConfig { readyState 12 with skips := k }
      (idleBus 128 170 0 0) := by
    norm_num [runsSelection, refineWaiting, adaptiveConfig, sourceConfig, readyState, idleBus,
      nextDeck]
  refine ⟨hr, Or.inl ?_⟩
  have e1 : idleBus 128 170 0 0 (.Channel (nextDeck (idleBus 128 170 0 0))) .file_bpm = 170 := by
    norm_num [idleBus, nextDeck]
  have e2 : idleBus 128 170 0 0 (.Channel (prevDeck (idleBus 128 170 0 0))) .file_bpm = 128 := by
    norm_num [idleBus, prevDeck]
  have h1 : diffBpm 170 128 = 42 := by norm_num [diffBpm, abs_of_nonneg]
  have h2 : diffBpmDouble 170 128 = 86 := by norm_num [diffBpmDouble, abs_of_nonneg]
  rw [e1, e2, h1, h2]
  constructor <;> norm_num [readyState]

/-- In a run of gradual-mode fade ticks below the disengage point, with fixed roles and
declared BPMs and an engine that reports as the leading deck's live tempo the value last
written, every tick ends syncing and multiplies the distance of the live tempo to the
desired tempo by `1 - progress / 4`; the distance shrinks but never vanishes. -/
theorem fade_run_gap (cfg : Config) (hb : cfg.bpmSync = true)
    (hg : cfg.bpmSyncFade = true) (buses : ℕ → Bus) (s₀ : State) (P : ℕ) (nb pb : ℚ)
    (hfade : ∀ k, fadeTick (buses k)) (hP : ∀ k, prevDeck (buses k) = P)
    (hnb : ∀ k, buses k (.Channel (nextDeck (buses k))) .file_bpm = nb)
    (hpb : ∀ k, buses k (.Channel P) .file_bpm = pb)
    (hprog : ∀ k, 0 < progress (buses k) ∧ progress (buses k) < 3 / 4)
    (hfeed : ∀ k, buses (k + 1) (.Channel P) .bpm =
      (main cfg (runState cfg buses s₀ k) (buses k)).2.getValue (.Channel P) .bpm)
    (h₀ : buses 0 (.Channel P) .bpm ≠ desiredBpm nb pb) :
    ∀ k, (main cfg (runState cfg buses s₀ k) (buses k)).1.syncing = true ∧
      (main cfg (runState cfg buses s₀ k) (buses k)).2.getValue (.Channel P) .bpm -
          desiredBpm nb pb =
        (1 - progress (buses k) / 4) * (buses k (.Channel P) .bpm - desiredBpm nb pb) ∧
      |(main cfg (runState cfg buses s₀ k) (buses k)).2.getValue (.Channel P) .bpm -
          desiredBpm nb pb| < |buses k (.Channel P) .bpm - desiredBpm nb pb| ∧
      (main cfg (runState cfg buses s₀ k) (buses k)).2.getValue (.Channel P) .bpm ≠
        desiredBpm nb pb := by
  have step : ∀ k, (main cfg (runState cfg buses s₀ k) (buses k)).1.syncing = true ∧
      (main cfg (runState cfg buses s₀ k) (buses k)).2.getValue (.Channel P) .bpm -
          desiredBpm nb pb =
        (1 - progress (buses k) / 4) * (buses k (.Channel P) .bpm - desiredBpm nb pb) := by
    intro k
    have h := main_fade_gap cfg (runState cfg buses s₀ k) (buses k) (hfade k) hb hg
      (hprog k).2
    rw [hP k, hnb k, hpb k] at h
    exact h
  have hne : ∀ k, buses k (.Channel P) .bpm ≠ desiredBpm nb pb := by
    intro k
    induction k with
    | zero => exact h₀
    | succ k ih =>
      rw [hfeed k]
      intro hc
      have h2 := (step k).2
      rw [hc, sub_self] at h2
      have hfac : (1 - progress (buses k) / 4) ≠ 0 := by
        have := (hprog k).2
        intro h0
        linarith
      rcases mul_eq_zero.1 h2.symm with h3 | h3
      · exact hfac h3
      · exact ih (sub_eq_zero.1 h3)
  intro k
  refine ⟨(step k).1, (step k).2, ?_, ?_⟩
  · rw [(step k).2, abs_mul]
    have hp := hprog k
    have hf0 : 0 ≤ 1 - progress (buses k) / 4 := by linarith [hp.2]
    have hf1 : 1 - progress (buses k) / 4 < 1 := by linarith [hp.1]
    have hgap : 0 < |buses k (.Channel P) .bpm - desiredBpm nb pb| :=
      abs_pos.2 (sub_ne_zero.2 (hne k))
    rw [abs_of_nonneg hf0]
    calc (1 - progress (buses k) / 4) * |buses k (.Channel P) .bpm - desiredBpm nb pb|
        < 1 * |buses k (.Channel P) .bpm - desiredBpm nb pb| :=
          mul_lt_mul_of_pos_right hf1 hgap
      _ = |buses k (.Channel P) .bpm - desiredBpm nb pb| := one_mul _
  · rw [← hfeed k]
    exact hne (k + 1)

theorem feedback_prev (k : ℕ) : prevDeck (feedbackBuses k) = 1 := by
  norm_num [prevDeck, feedbackBuses, fadeBus]

theorem feedback_next (k : ℕ) : nextDeck (feedbackBuses k) = 2 := by
  norm_num [nextDeck, feedbackBuses, fadeBus]

theorem feedback_fadeTick (k : ℕ) : fadeTick (feedbackBuses k) := by
  norm_num [fadeTick, feedbackBuses, fadeBus, nextDeck, nextPos]

theorem feedback_progress (k : ℕ) : progress (feedbackBuses k) = 1 / 2 := by
  norm_num [progress, normCrossfader, feedbackBuses, fadeBus, nextDeck]

theorem desiredBpm_130_120 : desiredBpm 130 120 = 130 := by
  norm_num [desiredBpm, diffBpm, diffBpmDouble, abs_of_nonneg, abs_of_nonpos]

/-- The buses of `feedbackBuses` report the live tempo that the previous tick wrote. -/
theorem feedback_feed (s₀ : State) (k : ℕ) :
    feedbackBuses (k + 1) (.Channel 1) .bpm =
      (main sourceConfig (runState sourceConfig feedbackBuses s₀ k)
        (feedbackBuses k)).2.getValue (.Channel 1) .bpm := by
  have h := (main_fade_gap sourceConfig (runState sourceConfig feedbackBuses s₀ k)
    (feedbackBuses k) (feedback_fadeTick k) rfl rfl
    (by rw [feedback_progress k]; norm_num)).2
  rw [feedback_prev k, feedback_next k, feedback_progress k] at h
  have e1 : feedbackBuses k (.Channel 2) .file_bpm = 130 := rfl
  have e2 : feedbackBuses k (.Channel 1) .file_bpm = 120 := rfl
  have e3 : feedbackBuses k (.Channel 1) .bpm = 130 - 10 * (7 / 8) ^ k := rfl
  have e4 : feedbackBuses (k + 1) (.Channel 1) .bpm = 130 - 10 * (7 / 8) ^ (k + 1) := rfl
  rw [e1, e2, e3, desiredBpm_130_120] at h
  rw [e4, pow_succ]
  linarith

theorem feedback_start : feedbackBuses 0 (.Channel 1) .bpm ≠ desiredBpm 130 120 := by
  rw [desiredBpm_130_120]
  norm_num [feedbackBuses, fadeBus]

/-- On the run `feedbackBuses` the live tempo never equals the desired 130. -/
theorem feedback_never (s₀ : State) (k : ℕ) :
    (main sourceConfig (runState sourceConfig feedbackBuses s₀ k)
        (feedbackBuses k)).1.syncing = true ∧
      (main sourceConfig (runState sourceConfig feedbackBuses s₀ k)
        (feedbackBuses k)).2.getValue (.Channel 1) .bpm ≠ desiredBpm 130 120 :=
  have h := fade_run_gap sourceConfig rfl rfl feedbackBuses s₀ 1 130 120 feedback_fadeTick
    feedback_prev (fun k => by rw [feedback_next k]; rfl) (fun _ => rfl)
    (fun k => by rw [feedback_progress k]; norm_num) (feedback_feed s₀) feedback_start k
  ⟨h.1, h.2.2.2⟩

/-! ## The claims -/

/-- C1: on a tick that runs the selection logic, with leading and incoming declared
BPMs `a`, `b` and tolerance `t = currMaxBpmAdj` at the start of the tick, a skip is
requested iff `min(|a-b|, diffBpmDouble) > t`, or key matching is on and the key test
rejects the pair; otherwise the track is accepted and its tempo is written.  A distance
equal to the tolerance (128, 140, tolerance 12, key matching off) is accepted. -/
theorem C1_skip_iff (cfg : Config) (s : State) (bus : Bus) (h : runsSelection cfg s bus) :
    (skipRequested cfg s bus ↔
      (min |bus (.Channel (prevDeck bus)) .file_bpm - bus (.Channel (nextDeck bus)) .file_bpm|
          (diffBpmDouble (bus (.Channel (nextDeck bus)) .file_bpm)
            (bus (.Channel (prevDeck bus)) .file_bpm)) > s.currMaxBpmAdj ∨
        (cfg.careAboutKey = true ∧
          keyTest (bus (.Channel (prevDeck bus)) .key)
            (bus (.Channel (nextDeck bus)) .key) = true))) ∧
    (¬ skipRequested cfg s bus →
      writtenTo cfg s bus (.Channel (nextDeck bus)) .bpm =
        [nextBpmAdjusted cfg (bus (.Channel (nextDeck bus)) .file_bpm)
          (bus (.Channel (prevDeck bus)) .file_bpm)]) ∧
    (bus (.Channel (prevDeck bus)) .file_bpm = 128 →
      bus (.Channel (nextDeck bus)) .file_bpm = 140 → s.currMaxBpmAdj = 12 →
      cfg.careAboutKey = false → accepts cfg s bus) := by
  have key : skipRequested cfg s bus ↔
      (min |bus (.Channel (prevDeck bus)) .file_bpm - bus (.Channel (nextDeck bus)) .file_bpm|
          (diffBpmDouble (bus (.Channel (nextDeck bus)) .file_bpm)
            (bus (.Channel (prevDeck bus)) .file_bpm)) > s.currMaxBpmAdj ∨
        (cfg.careAboutKey = true ∧
          keyTest (bus (.Channel (prevDeck bus)) .key)
            (bus (.Channel (nextDeck bus)) .key) = true)) := by
    rw [skipRequested_iff cfg s bus h, skipTest_iff, abs_sub_comm]
    rfl
  refine ⟨key, fun hs => writtenTo_of_accepts cfg s bus ⟨h, hs⟩, ?_⟩
  intro ha hb ht hk
  refine ⟨h, ?_⟩
  rw [key, ha, hb, ht, hk]
  norm_num

/-- C1 at the source options: leading 128, incoming 140, tolerance 12. -/
theorem C1_skip_iff_witness :
    runsSelection sourceConfig (readyState 12) (idleBus 128 140 0 0) ∧
      accepts sourceConfig (readyState 12) (idleBus 128 140 0 0) :=
  have h : runsSelection sourceConfig (readyState 12) (idleBus 128 140 0 0) := by
    norm_num [runsSelection, refineWaiting, sourceConfig, readyState, idleBus, nextDeck]
  ⟨h, (C1_skip_iff sourceConfig (readyState 12) (idleBus 128 140 0 0) h).2.2
    (by norm_num [idleBus, prevDeck]) (by norm_num [idleBus, nextDeck]) rfl rfl⟩

/-- C2, as the spec words it (offset 9 for a major code ≤ 3, offset 21 above), fails:
the code accepts the pair (1, 22), which that rule rejects. -/
theorem C2_counterexample :
    ¬ (keyTest ((1 : ℕ) : ℚ) ((22 : ℕ) : ℚ) = false ↔ harmonicRule 9 21 1 22) :=
  fun h => absurd (h.1 ((keyTest_natCast 1 22).2 (by decide))) (by decide)

/-- C2 (amended): for key codes `p`, `n` in 1..24 the key test accepts the pair iff
`p = n`; or one is major and the other minor and `|p-n| = 21` when the major code is
≤ 3 or `|p-n| = 9` when the major code is > 3; or both are major or both minor and
`|p-n|` is one of 1, 2, 5, 7, 10, 11. -/
theorem C2_keyTest_iff_rule (p n : ℕ) (hp : 1 ≤ p) (hp' : p ≤ 24) (hn : 1 ≤ n)
    (hn' : n ≤ 24) : keyTest (p : ℚ) (n : ℚ) = false ↔ harmonicRule 21 9 p n :=
  keyTest_harmonicRule p n hp hp' hn hn'

/-- C2 (amended) at the pair C major, A minor. -/
theorem C2_keyTest_iff_rule_witness :
    keyTest ((1 : ℕ) : ℚ) ((22 : ℕ) : ℚ) = false ↔ harmonicRule 21 9 1 22 :=
  C2_keyTest_iff_rule 1 22 (by decide) (by decide) (by decide) (by decide)

/-- C3: for all rational BPM values `a` (next) and `b` (prev), the doubled distance is
`|2*min(a,b) - max(a,b)|`; the BPM part of the skip test compares
`min(|a-b|, |2*min(a,b) - max(a,b)|)` with the tolerance; and the direct and the doubled
distance are unchanged when `a` and `b` are swapped. -/
theorem C3_effective_distance (a b : ℚ) :
    diffBpmDouble a b = |2 * min a b - max a b| ∧
    (∀ (cfg : Config) (s : State) (e : Engine) (p n : ℕ), cfg.careAboutKey = false →
      (skipTest cfg s e p n a b = true ↔
        min |a - b| |2 * min a b - max a b| > s.currMaxBpmAdj)) ∧
    diffBpm a b = diffBpm b a ∧ diffBpmDouble a b = diffBpmDouble b a := by
  refine ⟨diffBpmDouble_eq a b, ?_, abs_sub_comm a b, ?_⟩
  · intro cfg s e p n hk
    rw [skipTest_iff, hk, diffBpmDouble_eq]
    simp [diffBpm]
  · rw [diffBpmDouble_eq, diffBpmDouble_eq, min_comm, max_comm]

/-- C3 at incoming 65, leading 120: the effective distance is 10, so a tolerance of 12
does not skip. -/
theorem C3_effective_distance_witness :
    sourceConfig.careAboutKey = false ∧
      (skipTest sourceConfig (readyState 12) ⟨idleBus 120 65 0 0, []⟩ 1 2 65 120 = true ↔
        min |(65 : ℚ) - 120| |2 * min (65 : ℚ) 120 - max (65 : ℚ) 120| >
          (readyState 12).currMaxBpmAdj) :=
  ⟨rfl, (C3_effective_distance 65 120).2.1 sourceConfig (readyState 12)
    ⟨idleBus 120 65 0 0, []⟩ 1 2 rfl⟩

/-- C4: on an accepting tick the value written to the incoming deck's tempo control is,
in gradual mode (`bpmSyncFade` on), the leading deck's live tempo as it stands at the end
of the tick, halved when the doubled distance is smaller than the direct one and the
incoming track is slower, doubled when it is smaller and the incoming track is not slower;
in snap mode it is the incoming track's declared BPM.  With leading 120 and incoming 65
in gradual mode, a tolerance of at least 10 the BPM test accepts the track (it is accepted iff moreover
the key test does not reject it) and the value written is 60. -/
theorem C4_incoming_tempo (cfg : Config) (s : State) (bus : Bus)
    (h : runsSelection cfg s bus) :
    (accepts cfg s bus → cfg.bpmSyncFade = true →
      writtenTo cfg s bus (.Channel (nextDeck bus)) .bpm =
        [if diffBpmDouble (bus (.Channel (nextDeck bus)) .file_bpm)
              (bus (.Channel (prevDeck bus)) .file_bpm) <
            diffBpm (bus (.Channel (nextDeck bus)) .file_bpm)
              (bus (.Channel (prevDeck bus)) .file_bpm) then
          if bus (.Channel (nextDeck bus)) .file_bpm < bus (.Channel (prevDeck bus)) .file_bpm
          then (main cfg s bus).2.getValue (.Channel (prevDeck bus)) .bpm / 2
          else (main cfg s bus).2.getValue (.Channel (prevDeck bus)) .bpm * 2
        else (main cfg s bus).2.getValue (.Channel (prevDeck bus)) .bpm]) ∧
    (accepts cfg s bus → cfg.bpmSyncFade = false →
      writtenTo cfg s bus (.Channel (nextDeck bus)) .bpm =
        [bus (.Channel (nextDeck bus)) .file_bpm]) ∧
    (bus (.Channel (prevDeck bus)) .file_bpm = 120 →
      bus (.Channel (nextDeck bus)) .file_bpm = 65 → cfg.bpmSyncFade = true →
      (accepts cfg s bus ↔
        (10 ≤ s.currMaxBpmAdj ∧
          (cfg.careAboutKey = false ∨
            keyTest (bus (.Channel (prevDeck bus)) .key)
              (bus (.Channel (nextDeck bus)) .key) = false))) ∧
      (accepts cfg s bus →
        writtenTo cfg s bus (.Channel (nextDeck bus)) .bpm = [60])) := by
  refine ⟨?_, ?_, ?_⟩
  · intro ha hf
    rw [writtenTo_of_accepts cfg s bus ha, live_bpm_of_accepts cfg s bus ha hf]
    simp only [nextBpmAdjusted, hf, if_true]
  · intro ha hf
    rw [writtenTo_of_accepts cfg s bus ha]
    simp [nextBpmAdjusted, hf]
  · intro ha hb hf
    have h10 : min (diffBpm 65 120) (diffBpmDouble 65 120) = 10 := by
      norm_num [diffBpm, diffBpmDouble, abs_of_nonneg, abs_of_nonpos]
    constructor
    · unfold accepts
      rw [skipRequested_iff cfg s bus h, skipTest_iff, ha, hb, h10]
      simp only [getValue_mk, gt_iff_lt, not_or, not_lt, not_and, Bool.not_eq_true]
      constructor
      · rintro ⟨-, h1, h2⟩
        refine ⟨h1, ?_⟩
        cases hc : cfg.careAboutKey
        · exact Or.inl rfl
        · exact Or.inr (h2 hc)
      · rintro ⟨h1, h2⟩
        refine ⟨h, h1, fun hc => ?_⟩
        rcases h2 with h2 | h2
        · rw [h2] at hc; exact absurd hc Bool.false_ne_true
        · exact h2
    · intro hacc
      rw [writtenTo_of_accepts cfg s bus hacc, ha, hb]
      norm_num [nextBpmAdjusted, hf, diffBpm, diffBpmDouble, abs_of_nonneg, abs_of_nonpos]

/-- C4 at the source options (gradual mode): leading 120, incoming 65, tolerance 12. -/
theorem C4_incoming_tempo_witness :
    runsSelection sourceConfig (readyState 12) (idleBus 120 65 0 0) ∧
      accepts sourceConfig (readyState 12) (idleBus 120 65 0 0) ∧
      writtenTo sourceConfig (readyState 12) (idleBus 120 65 0 0)
        (.Channel (nextDeck (idleBus 120 65 0 0))) .bpm = [60] :=
  have h : runsSelection sourceConfig (readyState 12) (idleBus 120 65 0 0) := by
    norm_num [runsSelection, refineWaiting, sourceConfig, readyState, idleBus, nextDeck]
  have key := (C4_incoming_tempo sourceConfig (readyState 12) (idleBus 120 65 0 0) h).2.2
    (by norm_num [idleBus, prevDeck]) (by norm_num [idleBus, nextDeck]) rfl
  have hacc := key.1.2 ⟨by norm_num [readyState], Or.inl rfl⟩
  ⟨h, hacc, key.2 hacc⟩

/-- C5: with `maxBpmAdjustment ≥ 0`, in every state reachable from the initial state by
ticks of `main` the tolerance `currMaxBpmAdj` is at most `maxBpmAdjustment`; and right
after any accepting tick with adaptive search on it equals `maxBpmAdjustment / 4`. -/
theorem C5_tolerance_bounded (cfg : Config) (hM : 0 ≤ cfg.maxBpmAdjustment) :
    (∀ s, Reachable cfg s → s.currMaxBpmAdj ≤ cfg.maxBpmAdjustment) ∧
    (∀ s bus, accepts cfg s bus → cfg.adaptiveBpmSearch = true →
      (main cfg s bus).1.currMaxBpmAdj = cfg.maxBpmAdjustment / 4) := by
  constructor
  · intro s hs
    rcases reachable_currMaxBpmAdj cfg s hs with h | h | h | h <;> rw [h] <;> linarith
  · intro s bus ha had
    rw [main_state_of_accepts cfg s bus ha]
    simp [had]

/-- C5 with adaptive search and maximum 12: the state after a first tick is within the
maximum. -/
theorem C5_tolerance_bounded_witness :
    0 ≤ adaptiveConfig.maxBpmAdjustment ∧
      (main adaptiveConfig (State.initial adaptiveConfig)
        (idleBus 128 140 0 0)).1.currMaxBpmAdj ≤ adaptiveConfig.maxBpmAdjustment :=
  have h : 0 ≤ adaptiveConfig.maxBpmAdjustment := by norm_num [adaptiveConfig, sourceConfig]
  ⟨h, (C5_tolerance_bounded adaptiveConfig h).1 _ (Reachable.tick _ _ Reachable.initial)⟩

/-- C6: with a surrender threshold `T ≥ 1`: a rejecting tick (one that runs the selection
logic on a track failing the BPM test or, with key matching, the key test) issues the
skip request and increases `skips` by one, except that `skips` is reset to 0 when the
incremented value equals `T`; `skips` never exceeds `T` in a state reachable from the
initial state; a tick that does not reject issues no skip request and leaves `skips`
unchanged. -/
theorem C6_skip_count (cfg : Config) (hT : 1 ≤ cfg.skipsTillSurrender) :
    (∀ s bus, rejects cfg s bus →
      skipRequested cfg s bus ∧
      (main cfg s bus).1.skips =
        if s.skips + 1 = cfg.skipsTillSurrender then 0 else s.skips + 1) ∧
    (∀ s, Reachable cfg s → s.skips ≤ cfg.skipsTillSurrender) ∧
    (∀ s bus, ¬ rejects cfg s bus →
      ¬ skipRequested cfg s bus ∧ (main cfg s bus).1.skips = s.skips) := by
  refine ⟨?_, ?_, ?_⟩
  · intro s bus hrej
    have hs := (rejects_iff_skipRequested cfg s bus).1 hrej
    refine ⟨hs, ?_⟩
    rw [main_state_of_skipRequested cfg s bus hs]
  · intro s hs
    exact (reachable_skips cfg hT s hs).le
  · intro s bus hrej
    have hs : ¬ skipRequested cfg s bus := fun h =>
      hrej ((rejects_iff_skipRequested cfg s bus).2 h)
    refine ⟨hs, ?_⟩
    by_cases hr : runsSelection cfg s bus
    · rw [main_state_of_accepts cfg s bus ⟨hr, hs⟩]
    · exact (main_state_of_not_runsSelection cfg s bus hr).1

/-- C6 with threshold 24, leading 128 and incoming 170 at tolerance 12 (distances 42
and 86): the tick rejects; from `skips = 0` the count becomes 1, from `skips = 23` it is
reset to 0. -/
theorem C6_skip_count_witness :
    1 ≤ adaptiveConfig.skipsTillSurrender ∧
      rejects adaptiveConfig { readyState 12 with skips := 0 } (idleBus 128 170 0 0) ∧
      (main adaptiveConfig { readyState 12 with skips := 0 } (idleBus 128 170 0 0)).1.skips
        = 1 ∧
      rejects adaptiveConfig { readyState 12 with skips := 23 } (idleBus 128 170 0 0) ∧
      (main adaptiveConfig { readyState 12 with skips := 23 } (idleBus 128 170 0 0)).1.skips
        = 0 :=
  have h : 1 ≤ adaptiveConfig.skipsTillSurrender := by decide
  ⟨h, readyState_rejects 0,
    ((C6_skip_count adaptiveConfig h).1 _ _ (readyState_rejects 0)).2.trans (by decide),
    readyState_rejects 23,
    ((C6_skip_count adaptiveConfig h).1 _ _ (readyState_rejects 23)).2.trans (by decide)⟩

/-- C7: the key test is symmetric on key codes 1..24: the pair (leading `k1`,
incoming `k2`) is accepted iff the pair (leading `k2`, incoming `k1`) is. -/
theorem C7_keyTest_symmetric (k1 k2 : ℕ) (_h1 : 1 ≤ k1 ∧ k1 ≤ 24) (_h2 : 1 ≤ k2 ∧ k2 ≤ 24) :
    keyTest (k1 : ℚ) (k2 : ℚ) = false ↔ keyTest (k2 : ℚ) (k1 : ℚ) = false := by
  rw [keyTest_comm]

/-- C7 at the pair (1, 22): accepted in both orders. -/
theorem C7_keyTest_symmetric_witness :
    (keyTest ((1 : ℕ) : ℚ) ((22 : ℕ) : ℚ) = false ↔
      keyTest ((22 : ℕ) : ℚ) ((1 : ℕ) : ℚ) = false) ∧
    keyTest ((1 : ℕ) : ℚ) ((22 : ℕ) : ℚ) = false :=
  ⟨C7_keyTest_symmetric 1 22 (by decide) (by decide), (keyTest_natCast 1 22).2 (by decide)⟩

/-- C8: for a major key `k` in 1..12 and a minor key `m` in 13..24, in either order,
the key test accepts the pair iff `m = 13 + ((k + 8) mod 12)`, the relative minor of `k`
in Mixxx's numbering. -/
theorem C8_relative_minor (k m : ℕ) (hk : 1 ≤ k ∧ k ≤ 12) (hm : 13 ≤ m ∧ m ≤ 24) :
    (keyTest (k : ℚ) (m : ℚ) = false ↔ m = 13 + (k + 8) % 12) ∧
    (keyTest (m : ℚ) (k : ℚ) = false ↔ m = 13 + (k + 8) % 12) := by
  rw [keyTest_comm (m : ℚ) (k : ℚ), and_self, keyTest_natCast]
  unfold Nat.dist
  omega

/-- C8 at C major (1): A minor (22) is accepted, C minor (13) is not. -/
theorem C8_relative_minor_witness :
    keyTest ((1 : ℕ) : ℚ) ((22 : ℕ) : ℚ) = false ∧
      ¬ keyTest ((1 : ℕ) : ℚ) ((13 : ℕ) : ℚ) = false :=
  ⟨(C8_relative_minor 1 22 (by decide) (by decide)).1.2 (by decide),
    fun h => absurd ((C8_relative_minor 1 13 (by decide) (by decide)).1.1 h) (by decide)⟩

/-- C9, as stated, fails: on `falselyPlayingBus` the fade condition of line 206 is false
(play indicator true, play position 0), yet the tick does not enter the track-selection
branch: it leaves `refineWait` at 0, which that branch would step to 1. -/
theorem C9_counterexample :
    ¬ (¬ (falselyPlayingBus (.Channel (nextDeck falselyPlayingBus)) .play_indicator ≠ 0 ∧
          nextPos falselyPlayingBus > 0) →
        main sourceConfig (State.initial sourceConfig) falselyPlayingBus =
          trackSelection sourceConfig (State.initial sourceConfig) ⟨falselyPlayingBus, []⟩
            (prevDeck falselyPlayingBus) (nextDeck falselyPlayingBus)
            (falselyPlayingBus (.Channel (nextDeck falselyPlayingBus)) .file_bpm)
            (falselyPlayingBus (.Channel (prevDeck falselyPlayingBus)) .file_bpm)) := by
  intro h
  have hpos : ¬ nextPos falselyPlayingBus > 0 := by
    norm_num [nextPos, falselyPlayingBus]
  have hplay : falselyPlayingBus (.Channel (nextDeck falselyPlayingBus)) .play_indicator ≠ 0 := by
    norm_num [nextDeck, falselyPlayingBus]
  have h' := h (fun hc => hpos hc.2)
  rw [main_of_falsely_playing _ _ _ hplay hpos] at h'
  have hw : refineWaiting sourceConfig (State.initial sourceConfig) := by
    norm_num [refineWaiting, sourceConfig, State.initial]
  rw [trackSelection, if_pos hw] at h'
  have hrw := congrArg (fun x => x.1.refineWait) h'
  simp [State.initial] at hrw

/-- C9 (amended): a tick in which the incoming deck's play indicator is false enters the
track-selection branch; a tick in which the indicator is true but the play position is
not above 0 does nothing: no state change and no write. -/
theorem C9_selection_entry (cfg : Config) (s : State) (bus : Bus) :
    (bus (.Channel (nextDeck bus)) .play_indicator = 0 →
      main cfg s bus =
        trackSelection cfg s ⟨bus, []⟩ (prevDeck bus) (nextDeck bus)
          (bus (.Channel (nextDeck bus)) .file_bpm)
          (bus (.Channel (prevDeck bus)) .file_bpm)) ∧
    (bus (.Channel (nextDeck bus)) .play_indicator ≠ 0 → ¬ nextPos bus > 0 →
      main cfg s bus = (s, ⟨bus, []⟩)) :=
  ⟨main_of_stopped cfg s bus, main_of_falsely_playing cfg s bus⟩

/-- C9 (amended) on `falselyPlayingBus`: the tick does nothing. -/
theorem C9_selection_entry_witness :
    main sourceConfig (State.initial sourceConfig) falselyPlayingBus =
      (State.initial sourceConfig, ⟨falselyPlayingBus, []⟩) :=
  (C9_selection_entry sourceConfig (State.initial sourceConfig) falselyPlayingBus).2
    (by norm_num [nextDeck, falselyPlayingBus]) (by norm_num [nextPos, falselyPlayingBus])

/-- C10: in a tick with the incoming deck not playing, if
`refineWait * sleepDuration < refineDuration` the tick only increments `refineWait`
(no write, no other state change); otherwise it resets `refineWait` to 0 and runs the
selection logic.  Hence for `sleepDuration > 0`, over a run of such ticks starting from
`refineWait = 0`, the selection logic runs exactly on the ticks whose number is a
multiple of `N + 1`, `N = ⌈refineDuration / sleepDuration⌉`; for 500 ms / 200 ms that is
every 4th tick. -/
theorem C10_refine_wait (cfg : Config) :
    (∀ s bus, bus (.Channel (nextDeck bus)) .play_indicator = 0 →
      (refineWaiting cfg s →
        main cfg s bus = ({ s with refineWait := s.refineWait + 1 }, ⟨bus, []⟩)) ∧
      (¬ refineWaiting cfg s →
        main cfg s bus =
          selection cfg { s with refineWait := 0 } ⟨bus, []⟩ (prevDeck bus) (nextDeck bus)
            (bus (.Channel (nextDeck bus)) .file_bpm)
            (bus (.Channel (prevDeck bus)) .file_bpm) ∧
        (main cfg s bus).1.refineWait = 0)) ∧
    (0 < cfg.sleepDuration → 0 ≤ cfg.refineDuration →
      ∀ (buses : ℕ → Bus) (s₀ : State), s₀.refineWait = 0 →
        (∀ k, buses k (.Channel (nextDeck (buses k))) .play_indicator = 0) →
        ∀ k, runsSelection cfg (runState cfg buses s₀ k) (buses k) ↔
          (⌈cfg.refineDuration / cfg.sleepDuration⌉₊ + 1) ∣ (k + 1)) ∧
    (cfg.refineDuration = 500 → cfg.sleepDuration = 200 →
      ⌈cfg.refineDuration / cfg.sleepDuration⌉₊ + 1 = 4) := by
  refine ⟨?_, ?_, ?_⟩
  · intro s bus hp
    refine ⟨main_of_waiting cfg s bus hp, fun hw => ⟨?_, ?_⟩⟩
    · exact main_of_runsSelection cfg s bus ⟨hp, hw⟩
    · exact main_refineWait_of_runsSelection cfg s bus ⟨hp, hw⟩
  · intro hS _ buses s₀ h₀ hb k
    have hpos : 0 < ⌈cfg.refineDuration / cfg.sleepDuration⌉₊ + 1 := Nat.succ_pos _
    have hlt := Nat.mod_lt k hpos
    have hmod := succ_mod_cases k _ hpos
    unfold runsSelection
    rw [refineWaiting_iff cfg _ hS, runState_refineWait cfg hS buses s₀ h₀ hb k,
      Nat.dvd_iff_mod_eq_zero, hmod]
    constructor
    · rintro ⟨-, h⟩
      rw [if_pos (by omega)]
    · intro h
      refine ⟨hb k, ?_⟩
      split_ifs at h with hc
      · omega
  · intro hR hS
    rw [hR, hS, ceil_500_200]

/-- C10 at the source options (500 ms / 200 ms) with the incoming deck stopped: the
selection logic runs on tick 4 and not on tick 3. -/
theorem C10_refine_wait_witness :
    runsSelection sourceConfig
        (runState sourceConfig (fun _ => idleBus 128 140 0 0) (State.initial sourceConfig) 3)
        (idleBus 128 140 0 0) ∧
      ¬ runsSelection sourceConfig
        (runState sourceConfig (fun _ => idleBus 128 140 0 0) (State.initial sourceConfig) 2)
        (idleBus 128 140 0 0) :=
  have hS : 0 < sourceConfig.sleepDuration := by norm_num [sourceConfig]
  have hR : 0 ≤ sourceConfig.refineDuration := by norm_num [sourceConfig]
  have hN : ⌈sourceConfig.refineDuration / sourceConfig.sleepDuration⌉₊ + 1 = 4 :=
    (C10_refine_wait sourceConfig).2.2 rfl rfl
  have hb : ∀ k : ℕ, (fun _ : ℕ => idleBus 128 140 0 0) k
      (.Channel (nextDeck ((fun _ : ℕ => idleBus 128 140 0 0) k))) .play_indicator = 0 := by
    intro k
    norm_num [idleBus, nextDeck]
  have key := (C10_refine_wait sourceConfig).2.1 hS hR (fun _ => idleBus 128 140 0 0)
    (State.initial sourceConfig) rfl hb
  ⟨(key 3).2 (by rw [hN]), fun h => absurd ((key 2).1 h) (by rw [hN]; decide)⟩

/-- C11, as stated, fails at the boundary: a fade tick with BPM sync on that starts
syncing at progress exactly 0.75 (raw crossfader 0.5, deck 2 incoming) ends syncing,
although its progress is not below 0.75. -/
theorem C11_counterexample :
    fadeTick (fadeBus 120 130 120 (1 / 2)) ∧ sourceConfig.bpmSync = true ∧
      (main sourceConfig (fadingState true) (fadeBus 120 130 120 (1 / 2))).1.syncing = true ∧
      ¬ progress (fadeBus 120 130 120 (1 / 2)) < 3 / 4 := by
  have hf : fadeTick (fadeBus 120 130 120 (1 / 2)) := by
    norm_num [fadeTick, fadeBus, nextDeck, nextPos]
  have hp : progress (fadeBus 120 130 120 (1 / 2)) = 3 / 4 := by
    norm_num [progress, normCrossfader, fadeBus, nextDeck]
  refine ⟨hf, rfl, ?_, by rw [hp]; norm_num⟩
  rw [main_fade_syncing _ _ _ hf, hp]
  norm_num [sourceConfig, syncingAfter, fadingState]

/-- C11 (amended): on a fade tick with BPM sync on, from any starting state, if `syncing`
is true at the end of the tick then the progress of the tick is at most 0.75; and after
a tick that has disengaged (progress above 0.75 while syncing) `syncing` is false, and it
stays false over every following run of ticks whose progress is not below 0.75. -/
theorem C11_syncing_below_threshold (cfg : Config) (hb : cfg.bpmSync = true) :
    (∀ s bus, fadeTick bus → (main cfg s bus).1.syncing = true → progress bus ≤ 3 / 4) ∧
    (∀ s bus, fadeTick bus → progress bus > 3 / 4 → s.syncing = true →
      (main cfg s bus).1.syncing = false ∧
      ∀ buses : ℕ → Bus, (∀ k, fadeTick (buses k) → 3 / 4 ≤ progress (buses k)) →
        ∀ k, (runState cfg buses (main cfg s bus).1 k).syncing = false) := by
  constructor
  · intro s bus hf hs
    rw [main_fade_syncing cfg s bus hf, if_pos hb] at hs
    by_contra hlt
    rw [not_le] at hlt
    unfold syncingAfter at hs
    cases hsy : s.syncing
    · rw [hsy] at hs
      rw [if_neg (by simp), if_neg (fun hc => absurd hc.1 (not_lt.2 hlt.le))] at hs
      exact Bool.false_ne_true hs
    · rw [hsy, if_pos ⟨hlt, rfl⟩] at hs
      exact Bool.false_ne_true hs
  · intro s bus hf hp hs
    have h1 : (main cfg s bus).1.syncing = false := by
      rw [main_fade_syncing cfg s bus hf, if_pos hb, syncingAfter, if_pos ⟨hp, hs⟩]
    refine ⟨h1, fun buses hbus k => ?_⟩
    induction k with
    | zero => exact h1
    | succ k ih => exact main_syncing_stays_false cfg _ _ ih (hbus k)

/-- C11 (amended) at the source options: a syncing fade tick at progress 0.9 disengages. -/
theorem C11_syncing_below_threshold_witness :
    sourceConfig.bpmSync = true ∧
      (main sourceConfig (fadingState true) (fadeBus 120 130 120 (4 / 5))).1.syncing = false :=
  ⟨rfl, ((C11_syncing_below_threshold sourceConfig rfl).2 (fadingState true)
    (fadeBus 120 130 120 (4 / 5))
    (by norm_num [fadeTick, fadeBus, nextDeck, nextPos])
    (by norm_num [progress, normCrossfader, fadeBus, nextDeck]) rfl).1⟩

/-- C12: in gradual mode (`bpmSync` and `bpmSyncFade` on), a fade tick that ends syncing
writes to the leading deck's live tempo `cur + 0.25 * progress * (desired - cur)`, where
`cur` is the live tempo read in the tick and `desired` is the incoming declared BPM, or,
when the doubled distance is smaller than the direct one, twice it if the incoming track
is slower than the leading one and half of it otherwise; a fade tick that ends not
syncing writes no tempo. -/
theorem C12_incremental_tempo (cfg : Config) (s : State) (bus : Bus) (hf : fadeTick bus)
    (hb : cfg.bpmSync = true) (hg : cfg.bpmSyncFade = true) :
    ((main cfg s bus).1.syncing = true →
      writtenTo cfg s bus (.Channel (prevDeck bus)) .bpm =
        [bus (.Channel (prevDeck bus)) .bpm +
          1 / 4 * progress bus *
            ((if diffBpmDouble (bus (.Channel (nextDeck bus)) .file_bpm)
                  (bus (.Channel (prevDeck bus)) .file_bpm) <
                diffBpm (bus (.Channel (nextDeck bus)) .file_bpm)
                  (bus (.Channel (prevDeck bus)) .file_bpm) then
                if bus (.Channel (nextDeck bus)) .file_bpm <
                    bus (.Channel (prevDeck bus)) .file_bpm
                then 2 * bus (.Channel (nextDeck bus)) .file_bpm
                else bus (.Channel (nextDeck bus)) .file_bpm / 2
              else bus (.Channel (nextDeck bus)) .file_bpm) -
              bus (.Channel (prevDeck bus)) .bpm)]) ∧
    ((main cfg s bus).1.syncing = false →
      writtenTo cfg s bus (.Channel (prevDeck bus)) .bpm = []) := by
  constructor
  · intro hs
    rw [main_fade_written_bpm cfg s bus hf, if_pos ⟨hb, hg, hs⟩, desiredBpm, mul_comm 2]
  · intro hs
    rw [main_fade_written_bpm cfg s bus hf, if_neg]
    rintro ⟨-, -, h⟩
    rw [hs] at h
    exact Bool.false_ne_true h

/-- C12 at the source options: leading live tempo 120, incoming 130, progress 0.5,
already syncing: the tempo written is 121.25. -/
theorem C12_incremental_tempo_witness :
    fadeTick (fadeBus 120 130 120 0) ∧
      writtenTo sourceConfig (fadingState true) (fadeBus 120 130 120 0)
        (.Channel (prevDeck (fadeBus 120 130 120 0))) .bpm = [485 / 4] := by
  have hf : fadeTick (fadeBus 120 130 120 0) := by
    norm_num [fadeTick, fadeBus, nextDeck, nextPos]
  have hp : progress (fadeBus 120 130 120 0) = 1 / 2 := by
    norm_num [progress, normCrossfader, fadeBus, nextDeck]
  have hs : (main sourceConfig (fadingState true) (fadeBus 120 130 120 0)).1.syncing = true := by
    rw [main_fade_syncing _ _ _ hf, hp]
    norm_num [sourceConfig, syncingAfter, fadingState]
  refine ⟨hf, ?_⟩
  rw [(C12_incremental_tempo sourceConfig (fadingState true) (fadeBus 120 130 120 0) hf
    rfl rfl).1 hs, hp]
  norm_num [fadeBus, prevDeck, nextDeck, diffBpm, diffBpmDouble, abs_of_nonneg, abs_of_nonpos]

/-- C13, as stated, fails: on the run `feedbackBuses` (source options, gradual mode,
leading live tempo 120, desired tempo 130, progress 0.5 at every tick, the engine
reporting the live tempo last written) every tick is a fade tick that ends syncing, the
live tempo starts different from the desired tempo, and after no finite number of ticks
does the live tempo equal the desired tempo. -/
theorem C13_counterexample :
    (∀ k, fadeTick (feedbackBuses k) ∧ progress (feedbackBuses k) = 1 / 2 ∧
      (main sourceConfig (runState sourceConfig feedbackBuses (fadingState true) k)
        (feedbackBuses k)).1.syncing = true ∧
      feedbackBuses (k + 1) (.Channel 1) .bpm =
        (main sourceConfig (runState sourceConfig feedbackBuses (fadingState true) k)
          (feedbackBuses k)).2.getValue (.Channel 1) .bpm) ∧
    feedbackBuses 0 (.Channel 1) .bpm ≠ desiredBpm 130 120 ∧
    ¬ ∃ k, (main sourceConfig (runState sourceConfig feedbackBuses (fadingState true) k)
        (feedbackBuses k)).2.getValue (.Channel 1) .bpm = desiredBpm 130 120 :=
  ⟨fun k => ⟨feedback_fadeTick k, feedback_progress k, (feedback_never _ k).1,
      feedback_feed _ k⟩,
    feedback_start, fun ⟨k, hk⟩ => (feedback_never _ k).2 hk⟩

/-- C13 (amended): in gradual mode, over a run of consecutive fade ticks with progress
values in (0, 0.75), fixed roles and declared BPMs and an engine that reports as the
leading deck's live tempo the value last written, starting from a live tempo different
from the desired tempo: every tick ends syncing and multiplies the distance between the
leading deck's live tempo and the desired tempo by `1 - progress / 4`, so the live tempo
gets strictly closer to the desired tempo at every tick but never equals it. -/
theorem C13_approach_never_completes (cfg : Config) (hb : cfg.bpmSync = true)
    (hg : cfg.bpmSyncFade = true) (buses : ℕ → Bus) (s₀ : State) (P : ℕ) (nb pb : ℚ)
    (hfade : ∀ k, fadeTick (buses k)) (hP : ∀ k, prevDeck (buses k) = P)
    (hnb : ∀ k, buses k (.Channel (nextDeck (buses k))) .file_bpm = nb)
    (hpb : ∀ k, buses k (.Channel P) .file_bpm = pb)
    (hprog : ∀ k, 0 < progress (buses k) ∧ progress (buses k) < 3 / 4)
    (hfeed : ∀ k, buses (k + 1) (.Channel P) .bpm =
      (main cfg (runState cfg buses s₀ k) (buses k)).2.getValue (.Channel P) .bpm)
    (h₀ : buses 0 (.Channel P) .bpm ≠ desiredBpm nb pb) :
    ∀ k, (main cfg (runState cfg buses s₀ k) (buses k)).1.syncing = true ∧
      (main cfg (runState cfg buses s₀ k) (buses k)).2.getValue (.Channel P) .bpm -
          desiredBpm nb pb =
        (1 - progress (buses k) / 4) * (buses k (.Channel P) .bpm - desiredBpm nb pb) ∧
      |(main cfg (runState cfg buses s₀ k) (buses k)).2.getValue (.Channel P) .bpm -
          desiredBpm nb pb| < |buses k (.Channel P) .bpm - desiredBpm nb pb| ∧
      (main cfg (runState cfg buses s₀ k) (buses k)).2.getValue (.Channel P) .bpm ≠
        desiredBpm nb pb :=
  fade_run_gap cfg hb hg buses s₀ P nb pb hfade hP hnb hpb hprog hfeed h₀

/-- C13 (amended) on the run `feedbackBuses`: the first tick moves the live tempo from
120 strictly closer to 130, and after the 101st tick it still differs from 130. -/
theorem C13_approach_never_completes_witness :
    |(main sourceConfig (runState sourceConfig feedbackBuses (fadingState true) 0)
          (feedbackBuses 0)).2.getValue (.Channel 1) .bpm - desiredBpm 130 120| <
        |feedbackBuses 0 (.Channel 1) .bpm - desiredBpm 130 120| ∧
      (main sourceConfig (runState sourceConfig feedbackBuses (fadingState true) 100)
        (feedbackBuses 100)).2.getValue (.Channel 1) .bpm ≠ desiredBpm 130 120 :=
  have key := C13_approach_never_completes sourceConfig rfl rfl feedbackBuses
    (fadingState true) 1 130 120 feedback_fadeTick feedback_prev
    (fun k => by rw [feedback_next k]; rfl) (fun _ => rfl)
    (fun k => by rw [feedback_progress k]; norm_num) (feedback_feed _) feedback_start
  ⟨(key 0).2.2.1, (key 100).2.2.2⟩

/-- C14: every tick that runs the selection logic ends with `syncing = false`, whatever
the starting state; and if `syncing` was true at the start of such a tick, the tick
writes sync mode 0 (none) to both decks, and nothing else to their sync mode. -/
theorem C14_selection_clears_sync (cfg : Config) (s : State) (bus : Bus)
    (h : runsSelection cfg s bus) :
    (main cfg s bus).1.syncing = false ∧
    (s.syncing = true →
      writtenTo cfg s bus (.Channel (prevDeck bus)) .sync_mode = [0] ∧
      writtenTo cfg s bus (.Channel (nextDeck bus)) .sync_mode = [0]) := by
  refine ⟨main_syncing_of_runsSelection cfg s bus h, fun hs => ?_⟩
  have hpn := prevDeck_ne_nextDeck bus
  rw [writtenTo_eq, writtenTo_eq, main_of_runsSelection cfg s bus h,
    selection_written_sync_mode, selection_written_sync_mode]
  simp [hs, hpn, hpn.symm]

/-- C14 at the source options, from a state left syncing by an aborted transition. -/
theorem C14_selection_clears_sync_witness :
    runsSelection sourceConfig { readyState 12 with syncing := true } (idleBus 128 140 0 0) ∧
      (main sourceConfig { readyState 12 with syncing := true }
        (idleBus 128 140 0 0)).1.syncing = false :=
  have h : runsSelection sourceConfig { readyState 12 with syncing := true }
      (idleBus 128 140 0 0) := by
    norm_num [runsSelection, refineWaiting, sourceConfig, readyState, idleBus, nextDeck]
  ⟨h, (C14_selection_clears_sync sourceConfig _ (idleBus 128 140 0 0) h).1⟩

/-- C15: in a rejecting tick from a state reachable from the initial state, with
`maxBpmAdjustment` an integer as documented (or any value above 0.4): if the skip count
reaches the surrender threshold, adaptive search is on and `currMaxBpmAdj` is strictly
below `maxBpmAdjustment` at the start of the tick, then `currMaxBpmAdj` at the end of the
tick is its starting value plus `maxBpmAdjustment / 4`; in every other rejecting tick it
is unchanged.  From any state and for any maximum the same holds with the code's own
guard, `currMaxBpmAdj < maxBpmAdjustment - 0.1` (line 380). -/
theorem C15_tolerance_growth (cfg : Config) (s : State) (bus : Bus)
    (h : rejects cfg s bus) :
    (Reachable cfg s →
      ((∃ m : ℕ, cfg.maxBpmAdjustment = m) ∨ 2 / 5 < cfg.maxBpmAdjustment) →
      ((s.skips + 1 = cfg.skipsTillSurrender ∧ cfg.adaptiveBpmSearch = true ∧
          s.currMaxBpmAdj < cfg.maxBpmAdjustment) →
        (main cfg s bus).1.currMaxBpmAdj = s.currMaxBpmAdj + cfg.maxBpmAdjustment / 4) ∧
      (¬ (s.skips + 1 = cfg.skipsTillSurrender ∧ cfg.adaptiveBpmSearch = true ∧
          s.currMaxBpmAdj < cfg.maxBpmAdjustment) →
        (main cfg s bus).1.currMaxBpmAdj = s.currMaxBpmAdj)) ∧
    ((s.skips + 1 = cfg.skipsTillSurrender ∧ cfg.adaptiveBpmSearch = true ∧
        s.currMaxBpmAdj < cfg.maxBpmAdjustment - 1 / 10) →
      (main cfg s bus).1.currMaxBpmAdj = s.currMaxBpmAdj + cfg.maxBpmAdjustment / 4) ∧
    (¬ (s.skips + 1 = cfg.skipsTillSurrender ∧ cfg.adaptiveBpmSearch = true ∧
        s.currMaxBpmAdj < cfg.maxBpmAdjustment - 1 / 10) →
      (main cfg s bus).1.currMaxBpmAdj = s.currMaxBpmAdj) := by
  have hs := (rejects_iff_skipRequested cfg s bus).1 h
  have hpos : (s.skips + 1 = cfg.skipsTillSurrender ∧ cfg.adaptiveBpmSearch = true ∧
        s.currMaxBpmAdj < cfg.maxBpmAdjustment - 1 / 10) →
      (main cfg s bus).1.currMaxBpmAdj = s.currMaxBpmAdj + cfg.maxBpmAdjustment / 4 := by
    intro hc
    rw [main_state_of_skipRequested cfg s bus hs]
    exact if_pos hc
  have hneg : ¬ (s.skips + 1 = cfg.skipsTillSurrender ∧ cfg.adaptiveBpmSearch = true ∧
        s.currMaxBpmAdj < cfg.maxBpmAdjustment - 1 / 10) →
      (main cfg s bus).1.currMaxBpmAdj = s.currMaxBpmAdj := by
    intro hc
    rw [main_state_of_skipRequested cfg s bus hs]
    exact if_neg hc
  refine ⟨fun hr hM => ?_, hpos, hneg⟩
  have hiff := reachable_lt_margin cfg s hr hM
  exact ⟨fun hc => hpos ⟨hc.1, hc.2.1, hiff.2 hc.2.2⟩,
    fun hc => hneg (fun hc' => hc ⟨hc'.1, hc'.2.1, hiff.1 hc'.2.2⟩)⟩

/-- C15 with maximum 12 and surrender threshold 1: from the reachable state with
tolerance 3, a rejecting tick (leading 120, incoming 150) raises the tolerance to 6. -/
theorem C15_tolerance_growth_witness :
    rejects quickConfig (quickState 1 3) (idleBus 120 150 0 0) ∧
      Reachable quickConfig (quickState 1 3) ∧
      (main quickConfig (quickState 1 3) (idleBus 120 150 0 0)).1.currMaxBpmAdj = 6 :=
  have h := quick_rejects 3 (by norm_num)
  ⟨h, quick_reachable,
    (((C15_tolerance_growth quickConfig (quickState 1 3) (idleBus 120 150 0 0) h).1
      quick_reachable (Or.inl ⟨12, by norm_num [quickConfig, sourceConfig]⟩)).1
      ⟨rfl, rfl, by norm_num [quickConfig, sourceConfig, quickState]⟩).trans
      (by norm_num [quickConfig, sourceConfig, quickState])⟩

/-- C16: on a fade tick with the Quick Effect fade on, for a raw crossfader in [-1, 1]
and `fadeRange` `r` in [0, 1]: the progress `p` is `(raw+1)/2` when deck 2 is incoming
and `1 - (raw+1)/2` when deck 1 is incoming, and lies in [0, 1]; the values written are
`fadeOut = 0.5 - p*r/2` to the leading and `fadeIn = 0.5 - p*r/2 + r/2` to the incoming
deck (swapped when `reverseQuickEffect` is set); both lie in [0, 1]; for `r = 0` both are
0.5; for `r = 1`, `fadeOut` is 0 at `p = 1` and `fadeIn` is 1 at `p = 0`. -/
theorem C16_coloration_fade (cfg : Config) (s : State) (bus : Bus) (hf : fadeTick bus)
    (hq : cfg.fadeQuickEffect = true)
    (hraw : -1 ≤ bus .Master .crossfader ∧ bus .Master .crossfader ≤ 1)
    (hr : 0 ≤ cfg.fadeRange ∧ cfg.fadeRange ≤ 1) :
    (nextDeck bus = 2 → progress bus = (bus .Master .crossfader + 1) / 2) ∧
    (nextDeck bus = 1 → progress bus = 1 - (bus .Master .crossfader + 1) / 2) ∧
    (nextDeck bus = 1 ∨ nextDeck bus = 2) ∧
    (0 ≤ progress bus ∧ progress bus ≤ 1) ∧
    writtenTo cfg s bus (.QuickEffectRack1 (prevDeck bus)) .super1 =
      [if cfg.reverseQuickEffect = true then
        1 / 2 - progress bus * cfg.fadeRange / 2 + cfg.fadeRange / 2
      else 1 / 2 - progress bus * cfg.fadeRange / 2] ∧
    writtenTo cfg s bus (.QuickEffectRack1 (nextDeck bus)) .super1 =
      [if cfg.reverseQuickEffect = true then 1 / 2 - progress bus * cfg.fadeRange / 2
      else 1 / 2 - progress bus * cfg.fadeRange / 2 + cfg.fadeRange / 2] ∧
    (0 ≤ 1 / 2 - progress bus * cfg.fadeRange / 2 ∧
      1 / 2 - progress bus * cfg.fadeRange / 2 ≤ 1) ∧
    (0 ≤ 1 / 2 - progress bus * cfg.fadeRange / 2 + cfg.fadeRange / 2 ∧
      1 / 2 - progress bus * cfg.fadeRange / 2 + cfg.fadeRange / 2 ≤ 1) ∧
    (cfg.fadeRange = 0 →
      1 / 2 - progress bus * cfg.fadeRange / 2 = 1 / 2 ∧
      1 / 2 - progress bus * cfg.fadeRange / 2 + cfg.fadeRange / 2 = 1 / 2) ∧
    (cfg.fadeRange = 1 →
      (progress bus = 1 → 1 / 2 - progress bus * cfg.fadeRange / 2 = 0) ∧
      (progress bus = 0 →
        1 / 2 - progress bus * cfg.fadeRange / 2 + cfg.fadeRange / 2 = 1)) := by
  obtain ⟨hr0, hr1⟩ := hr
  have hp2 : nextDeck bus = 2 → progress bus = (bus .Master .crossfader + 1) / 2 := by
    intro h
    simp [progress, normCrossfader, h]
  have hp1 : nextDeck bus = 1 → progress bus = 1 - (bus .Master .crossfader + 1) / 2 := by
    intro h
    simp [progress, normCrossfader, h]
  have hn : nextDeck bus = 1 ∨ nextDeck bus = 2 := by
    unfold nextDeck
    split_ifs
    · exact Or.inl rfl
    · exact Or.inr rfl
  have hp : 0 ≤ progress bus ∧ progress bus ≤ 1 := by
    rcases hn with h | h
    · rw [hp1 h]; constructor <;> linarith [hraw.1, hraw.2]
    · rw [hp2 h]; constructor <;> linarith [hraw.1, hraw.2]
  obtain ⟨hp0, hp1'⟩ := hp
  have hm0 : 0 ≤ progress bus * cfg.fadeRange := mul_nonneg hp0 hr0
  have hm1 : progress bus * cfg.fadeRange ≤ cfg.fadeRange := by
    calc progress bus * cfg.fadeRange ≤ 1 * cfg.fadeRange :=
          mul_le_mul_of_nonneg_right hp1' hr0
      _ = cfg.fadeRange := one_mul _
  refine ⟨hp2, hp1, hn, ⟨hp0, hp1'⟩, (main_fade_written_super1 cfg s bus hf hq).1,
    (main_fade_written_super1 cfg s bus hf hq).2, ⟨by linarith, by linarith⟩,
    ⟨by linarith, by linarith⟩, ?_, ?_⟩
  · intro h0
    rw [h0]
    constructor <;> ring
  · intro h1
    rw [h1]
    constructor
    · intro hp; rw [hp]; norm_num
    · intro hp; rw [hp]; norm_num

/-- C16 at the source options (`fadeRange` 0.25, not reversed), raw crossfader 0, deck 2
incoming: progress 0.5, 0.4375 written to the leading and 0.5625 to the incoming deck. -/
theorem C16_coloration_fade_witness :
    fadeTick (fadeBus 120 130 120 0) ∧
      writtenTo sourceConfig (fadingState true) (fadeBus 120 130 120 0)
        (.QuickEffectRack1 (prevDeck (fadeBus 120 130 120 0))) .super1 = [7 / 16] ∧
      writtenTo sourceConfig (fadingState true) (fadeBus 120 130 120 0)
        (.QuickEffectRack1 (nextDeck (fadeBus 120 130 120 0))) .super1 = [9 / 16] := by
  have hf : fadeTick (fadeBus 120 130 120 0) := by
    norm_num [fadeTick, fadeBus, nextDeck, nextPos]
  have hp : progress (fadeBus 120 130 120 0) = 1 / 2 := by
    norm_num [progress, normCrossfader, fadeBus, nextDeck]
  have key := C16_coloration_fade sourceConfig (fadingState true) (fadeBus 120 130 120 0) hf
    rfl (by norm_num [fadeBus]) (by norm_num [sourceConfig])
  refine ⟨hf, ?_, ?_⟩
  · rw [key.2.2.2.2.1, hp]; norm_num [sourceConfig]
  · rw [key.2.2.2.2.2.1, hp]; norm_num [sourceConfig]

/-- C17: the disengage action (writing 2 to `sync_enabled`) is performed exactly in a
fade tick with BPM sync on, progress above 0.75 and `syncing` true at the start, so never
in a tick that starts with `syncing = false`; and in every sequence of ticks from any
starting state, between two ticks that disengage there is a tick that engages (writes 1
to `sync_enabled` and sets `syncing`). -/
theorem C17_no_double_disengage (cfg : Config) :
    (∀ s bus, disengages cfg s bus ↔
      fadeTick bus ∧ cfg.bpmSync = true ∧ progress bus > 3 / 4 ∧ s.syncing = true) ∧
    (∀ s bus, disengages cfg s bus → s.syncing = true ∧ (main cfg s bus).1.syncing = false) ∧
    (∀ s bus, engages cfg s bus → s.syncing = false ∧ (main cfg s bus).1.syncing = true) ∧
    (∀ (buses : ℕ → Bus) (s₀ : State) (i j : ℕ), i < j →
      disengages cfg (runState cfg buses s₀ i) (buses i) →
      disengages cfg (runState cfg buses s₀ j) (buses j) →
      ∃ k, i < k ∧ k < j ∧ engages cfg (runState cfg buses s₀ k) (buses k)) := by
  have hdis : ∀ s bus, disengages cfg s bus →
      s.syncing = true ∧ (main cfg s bus).1.syncing = false := by
    intro s bus h
    obtain ⟨hf, hb, hp, hs⟩ := (disengages_iff cfg s bus).1 h
    refine ⟨hs, ?_⟩
    rw [main_fade_syncing cfg s bus hf, if_pos hb, syncingAfter, if_pos ⟨hp, hs⟩]
  refine ⟨disengages_iff cfg, hdis, ?_, ?_⟩
  · intro s bus h
    obtain ⟨hf, hb, hp, hs, hg⟩ := (engages_iff cfg s bus).1 h
    refine ⟨hs, ?_⟩
    rw [main_fade_syncing cfg s bus hf, if_pos hb, syncingAfter, hs, if_neg (by simp),
      if_pos ⟨hp, by simp⟩]
    rcases hg with hg | hg
    · rw [if_pos hg]
    · rw [if_pos hg]; split_ifs <;> rfl
  · intro buses s₀ i j hij hi hj
    have h1 : (runState cfg buses s₀ (i + 1)).syncing = false := (hdis _ _ hi).2
    have h2 : (runState cfg buses s₀ (i + 1 + (j - (i + 1)))).syncing = true := by
      rw [Nat.add_sub_cancel' hij]
      exact (hdis _ _ hj).1
    obtain ⟨k, hk1, hk2, hk3⟩ := engages_between cfg buses s₀ (i + 1) (j - (i + 1)) h1 h2
    exact ⟨k, by omega, by omega, hk3⟩

/-- C17 at the source options: a syncing fade tick at progress 0.9 disengages; it starts
with `syncing` true and ends with `syncing` false. -/
theorem C17_no_double_disengage_witness :
    disengages sourceConfig (fadingState true) (fadeBus 120 130 120 (4 / 5)) ∧
      (fadingState true).syncing = true ∧
      (main sourceConfig (fadingState true) (fadeBus 120 130 120 (4 / 5))).1.syncing = false :=
  have hd : disengages sourceConfig (fadingState true) (fadeBus 120 130 120 (4 / 5)) :=
    ((C17_no_double_disengage sourceConfig).1 _ _).2
      ⟨by norm_num [fadeTick, fadeBus, nextDeck, nextPos], rfl,
        by norm_num [progress, normCrossfader, fadeBus, nextDeck], rfl⟩
  ⟨hd, (C17_no_double_disengage sourceConfig).2.1 _ _ hd⟩

/-- C18: literal results of the key test: (1,1), (1,22), (1,8) and (1,6) are compatible;
(1,5) and (1,13) are not. -/
theorem C18_key_literals :
    keyTest ((1 : ℕ) : ℚ) ((1 : ℕ) : ℚ) = false ∧
    keyTest ((1 : ℕ) : ℚ) ((22 : ℕ) : ℚ) = false ∧
    keyTest ((1 : ℕ) : ℚ) ((8 : ℕ) : ℚ) = false ∧
    keyTest ((1 : ℕ) : ℚ) ((6 : ℕ) : ℚ) = false ∧
    keyTest ((1 : ℕ) : ℚ) ((5 : ℕ) : ℚ) = true ∧
    keyTest ((1 : ℕ) : ℚ) ((13 : ℕ) : ℚ) = true := by
  refine ⟨(keyTest_natCast 1 1).2 (by decide), (keyTest_natCast 1 22).2 (by decide),
    (keyTest_natCast 1 8).2 (by decide), (keyTest_natCast 1 6).2 (by decide), ?_, ?_⟩
  · rw [← Bool.not_eq_false, keyTest_natCast]; decide
  · rw [← Bool.not_eq_false, keyTest_natCast]; decide

/-- C19, as stated, fails: the key test rejects the pair (5, 16). -/
theorem C19_counterexample : ¬ keyTest ((5 : ℕ) : ℚ) ((16 : ℕ) : ℚ) = false := by
  rw [keyTest_natCast]; decide

/-- C19 (amended): the key test classifies the pair (5, 16) as not compatible; the minor
key compatible with 5 by rule 1b is 14. -/
theorem C19_pair_5_16 :
    keyTest ((5 : ℕ) : ℚ) ((16 : ℕ) : ℚ) = true ∧
      keyTest ((5 : ℕ) : ℚ) ((14 : ℕ) : ℚ) = false := by
  refine ⟨?_, (keyTest_natCast 5 14).2 (by decide)⟩
  rw [← Bool.not_eq_false, keyTest_natCast]; decide

/-- C20: on every accepting tick in gradual mode (`bpmSyncFade` on, key matching on or
off) the tempo written to the incoming deck differs from the incoming track's declared
BPM by at most the tolerance `currMaxBpmAdj` in force at the start of the tick. -/
theorem C20_adjusted_within_tolerance (cfg : Config) (s : State) (bus : Bus)
    (h : accepts cfg s bus) (hf : cfg.bpmSyncFade = true) :
    ∃ v, writtenTo cfg s bus (.Channel (nextDeck bus)) .bpm = [v] ∧
      v = nextBpmAdjusted cfg (bus (.Channel (nextDeck bus)) .file_bpm)
        (bus (.Channel (prevDeck bus)) .file_bpm) ∧
      |v - bus (.Channel (nextDeck bus)) .file_bpm| ≤ s.currMaxBpmAdj := by
  refine ⟨_, writtenTo_of_accepts cfg s bus h, rfl, ?_⟩
  apply abs_nextBpmAdjusted_sub_le cfg _ _ _ hf
  obtain ⟨hr, hs⟩ := h
  rw [skipRequested_iff cfg s bus hr, skipTest_iff] at hs
  exact not_lt.1 (fun hlt => hs (Or.inl hlt))

/-- C20 at the source options: leading 120, incoming 65, tolerance 12; 60 is written. -/
theorem C20_adjusted_within_tolerance_witness :
    ∃ v, writtenTo sourceConfig (readyState 12) (idleBus 120 65 0 0)
        (.Channel (nextDeck (idleBus 120 65 0 0))) .bpm = [v] ∧
      v = nextBpmAdjusted sourceConfig
        (idleBus 120 65 0 0 (.Channel (nextDeck (idleBus 120 65 0 0))) .file_bpm)
        (idleBus 120 65 0 0 (.Channel (prevDeck (idleBus 120 65 0 0))) .file_bpm) ∧
      |v - idleBus 120 65 0 0 (.Channel (nextDeck (idleBus 120 65 0 0))) .file_bpm| ≤
        (readyState 12).currMaxBpmAdj :=
  have hr : runsSelection sourceConfig (readyState 12) (idleBus 120 65 0 0) := by
    norm_num [runsSelection, refineWaiting, sourceConfig, readyState, idleBus, nextDeck]
  have hs : ¬ skipRequested sourceConfig (readyState 12) (idleBus 120 65 0 0) := by
    rw [skipRequested_iff _ _ _ hr, skipTest_iff]
    norm_num [sourceConfig, readyState, idleBus, nextDeck, prevDeck, diffBpm, diffBpmDouble,
      abs_of_nonneg, abs_of_nonpos]
  C20_adjusted_within_tolerance sourceConfig (readyState 12) (idleBus 120 65 0 0) ⟨hr, hs⟩ rfl

/-- C21: the key test is invariant under transposition: for key codes `p`, `n` in 1..24
the shifted codes stay in 1..24 and in their tonality, and the pair
`(transpose p, transpose n)` is accepted iff `(p, n)` is; and two keys of the same
tonality are accepted iff their circular distance `min(d, 12 - d)`, `d = |p - n|`, is
0, 1, 2 or 5. -/
theorem C21_transposition_invariant (p n : ℕ) (hp : 1 ≤ p ∧ p ≤ 24) (hn : 1 ≤ n ∧ n ≤ 24) :
    (1 ≤ transpose p ∧ transpose p ≤ 24 ∧ (transpose p ≤ 12 ↔ p ≤ 12)) ∧
    (keyTest (transpose p : ℚ) (transpose n : ℚ) = false ↔
      keyTest (p : ℚ) (n : ℚ) = false) ∧
    ((p ≤ 12 ∧ n ≤ 12 ∨ 13 ≤ p ∧ 13 ≤ n) →
      (keyTest (p : ℚ) (n : ℚ) = false ↔
        (min (Nat.dist p n) (12 - Nat.dist p n) = 0 ∨
          min (Nat.dist p n) (12 - Nat.dist p n) = 1 ∨
          min (Nat.dist p n) (12 - Nat.dist p n) = 2 ∨
          min (Nat.dist p n) (12 - Nat.dist p n) = 5))) :=
  ⟨transpose_range p hp.1 hp.2, keyTest_transpose p n hp hn,
    keyTest_same_tonality p n hp hn⟩

/-- C21 at the pair B major (12), G sharp minor (21): it is accepted, and so is its
transposition, the pair C major (1), A minor (22). -/
theorem C21_transposition_invariant_witness :
    transpose 12 = 1 ∧ transpose 21 = 22 ∧
      keyTest ((12 : ℕ) : ℚ) ((21 : ℕ) : ℚ) = false ∧
      keyTest ((transpose 12 : ℕ) : ℚ) ((transpose 21 : ℕ) : ℚ) = false :=
  have h := (keyTest_natCast 12 21).2 (by decide)
  ⟨by decide, by decide, h,
    (C21_transposition_invariant 12 21 (by decide) (by decide)).2.1.2 h⟩

/-- C22 fails on the code when the fade direction is reversed: with the Quick Effect fade
on, a selection tick writes `0.5 + fadeRange/2` to the incoming and `0.5` to the leading
deck whatever the direction, while a fade tick at progress 0 on the same decks writes
these values only when `reverseQuickEffect` is off and the exchanged ones when it is on;
so the prepared values equal the first values of the fade iff the direction is not
reversed or `fadeRange = 0`. -/
theorem C22_prepared_coloration (cfg : Config) (hq : cfg.fadeQuickEffect = true)
    (s s' : State) (bus bus' : Bus) (hsel : runsSelection cfg s bus) (hfade : fadeTick bus')
    (hp : progress bus' = 0) (hprev : prevDeck bus' = prevDeck bus)
    (hnext : nextDeck bus' = nextDeck bus) :
    writtenTo cfg s bus (.QuickEffectRack1 (nextDeck bus)) .super1 =
      [1 / 2 + cfg.fadeRange / 2] ∧
    writtenTo cfg s bus (.QuickEffectRack1 (prevDeck bus)) .super1 = [1 / 2] ∧
    writtenTo cfg s' bus' (.QuickEffectRack1 (nextDeck bus)) .super1 =
      [if cfg.reverseQuickEffect = true then 1 / 2 else 1 / 2 + cfg.fadeRange / 2] ∧
    writtenTo cfg s' bus' (.QuickEffectRack1 (prevDeck bus)) .super1 =
      [if cfg.reverseQuickEffect = true then 1 / 2 + cfg.fadeRange / 2 else 1 / 2] ∧
    ((writtenTo cfg s bus (.QuickEffectRack1 (nextDeck bus)) .super1 =
          writtenTo cfg s' bus' (.QuickEffectRack1 (nextDeck bus)) .super1 ∧
        writtenTo cfg s bus (.QuickEffectRack1 (prevDeck bus)) .super1 =
          writtenTo cfg s' bus' (.QuickEffectRack1 (prevDeck bus)) .super1) ↔
      (cfg.reverseQuickEffect = false ∨ cfg.fadeRange = 0)) := by
  have h1 := main_selection_written_super1 cfg s bus hsel hq
  have h2 := main_fade_written_super1 cfg s' bus' hfade hq
  rw [hprev, hnext, hp] at h2
  have e1 : (1 / 2 - 0 * cfg.fadeRange / 2 + cfg.fadeRange / 2 : ℚ) =
      1 / 2 + cfg.fadeRange / 2 := by ring
  have e2 : (1 / 2 - 0 * cfg.fadeRange / 2 : ℚ) = 1 / 2 := by ring
  rw [e1, e2] at h2
  refine ⟨h1.1, h1.2, h2.2, h2.1, ?_⟩
  rw [h1.1, h1.2, h2.1, h2.2]
  cases hr : cfg.reverseQuickEffect
  · simp
  · simp only [if_true, List.cons.injEq, and_true, Bool.true_eq_false, false_or]
    constructor
    · rintro ⟨h, -⟩
      linarith
    · intro h
      rw [h]
      norm_num

/-- C22 at the source options with the direction reversed (`fadeRange` 0.25): the
selection tick prepares the incoming deck with 0.625, and the fade tick at progress 0
(raw crossfader -1, deck 2 incoming) writes 0.5 to it. -/
theorem C22_prepared_coloration_witness :
    writtenTo reverseConfig (readyState 12) (idleBus 120 130 0 0)
        (.QuickEffectRack1 (nextDeck (idleBus 120 130 0 0))) .super1 = [5 / 8] ∧
      writtenTo reverseConfig (fadingState false) (fadeBus 120 130 120 (-1))
        (.QuickEffectRack1 (nextDeck (idleBus 120 130 0 0))) .super1 = [1 / 2] := by
  have hsel : runsSelection reverseConfig (readyState 12) (idleBus 120 130 0 0) := by
    norm_num [runsSelection, refineWaiting, reverseConfig, sourceConfig, readyState, idleBus,
      nextDeck]
  have hfade : fadeTick (fadeBus 120 130 120 (-1)) := by
    norm_num [fadeTick, fadeBus, nextDeck, nextPos]
  have hp : progress (fadeBus 120 130 120 (-1)) = 0 := by
    norm_num [progress, normCrossfader, fadeBus, nextDeck]
  have hprev : prevDeck (fadeBus 120 130 120 (-1)) = prevDeck (idleBus 120 130 0 0) := by
    norm_num [prevDeck, fadeBus, idleBus]
  have hnext : nextDeck (fadeBus 120 130 120 (-1)) = nextDeck (idleBus 120 130 0 0) := by
    norm_num [nextDeck, fadeBus, idleBus]
  have key := C22_prepared_coloration reverseConfig rfl (readyState 12) (fadingState false)
    (idleBus 120 130 0 0) (fadeBus 120 130 120 (-1)) hsel hfade hp hprev hnext
  refine ⟨?_, ?_⟩
  · rw [key.1]; norm_num [reverseConfig, sourceConfig]
  · rw [key.2.2.1]; norm_num [reverseConfig, sourceConfig]

end midiAutoDJ
